import Mathlib

/-!
Shallow embedding of `autoclasswrapper/wrap_in.py` (classes `Input` and
`Dataset`) and proofs about it.

Modelling conventions:
- A pandas `DataFrame` is a `DFrame`: an index (row-key) name, a list of
  column names, and rows given as a row-key together with the list of cell
  values aligned positionally with the column list.  A missing value (`NaN`)
  is `Option.none`.
- Python numbers are `ℚ`; a cell is either a number or a text value.
- A Python `dict` is an association list with insertion-order update
  semantics (`dictInsert` updates in place, else appends).
- A raising Python callable is a Lean function returning its result in
  `Except Err` (or an `Option Err` paired with the post-call state, when the
  partially mutated state at the raise point matters).
- Writing a file is modelled as returning the written content (as a list of
  structured lines); log calls have no effect and are not modelled.
-/

/-- The single-quote character, used in several source error messages. -/
def sqt : String := String.singleton (Char.ofNat 39)

/-- A cell value of a dataframe: a number or a piece of text.
`NaN` / absent cells are represented as `Option.none` around `Cell`. -/
inductive Cell where
  | num (q : ℚ)
  | txt (s : String)
deriving DecidableEq

/-- Column metadata record, from `Dataset.read_datafile` (wrap_in.py:438-440):
a role string (`"real scalar"`, `"real location"` or `"discrete"`), an error
value and a missing-data flag. -/
structure Meta where
  type : String
  error : Option ℚ
  missing : Bool
deriving DecidableEq

/-- The exceptions raised by the source (plus the builtin Python errors its
library calls can raise). -/
inductive Err where
  | duplicateColumnName (msg : String)
  | castFloat64 (msg : String)
  | assertionError (msg : String)
  | valueError (msg : String)
  | typeError (msg : String)
  | keyError (msg : String)
  | attributeError (msg : String)
deriving DecidableEq

abbrev ColName := String
abbrev RowKey := String

/-- Python dict: association list keyed by column name. -/
abbrev MetaDict := List (ColName × Meta)

/-- Python `d[k]` lookup (first entry with the key; dicts built by the source
have unique keys). -/
def dictGet? (m : MetaDict) (k : ColName) : Option Meta :=
  (m.find? (fun p => p.1 == k)).map Prod.snd

/-- Python `k in d`. -/
def dictMem (m : MetaDict) (k : ColName) : Bool :=
  m.any (fun p => p.1 == k)

/-- Python `d[k] = v`: update in place when the key exists, else append. -/
def dictInsert (m : MetaDict) (k : ColName) (v : Meta) : MetaDict :=
  if dictMem m k then m.map (fun p => if p.1 == k then (k, v) else p)
  else m ++ [(k, v)]

/-- Python `d.pop(k)` (the removal part; the returned value is `dictGet?`). -/
def dictRemove (m : MetaDict) (k : ColName) : MetaDict :=
  m.filter (fun p => !(p.1 == k))

/-- Python `{**a, **b}` (wrap_in.py:136): entries of `b` inserted into `a`
in order, so on key collision the later dict's entry wins. -/
def dictUnion (a b : MetaDict) : MetaDict :=
  b.foldl (fun acc p => dictInsert acc p.1 p.2) a

/-- A pandas dataframe: index (row-key) name, column names, and rows; each
row is its key together with cell values aligned with `cols`. -/
structure DFrame where
  indexName : String
  cols : List ColName
  rows : List (RowKey × List (Option Cell))
deriving DecidableEq

/-- Well-formed frame: every row has one cell per column and the row keys
are unique (the source treats the row key as a unique identifier). -/
def DFrame.WF (f : DFrame) : Prop :=
  (∀ p ∈ f.rows, p.2.length = f.cols.length) ∧ (f.rows.map Prod.fst).Nodup

instance (f : DFrame) : Decidable f.WF := by
  unfold DFrame.WF; infer_instance

/-- The list of row keys of a frame, in row order. -/
def DFrame.rowKeys (f : DFrame) : List RowKey := f.rows.map Prod.fst

/-- Cell lookup by row key and column name (`df.loc[r, c]`):
first row with the key, first column with the name. -/
def DFrame.cell (f : DFrame) (r : RowKey) (c : ColName) : Option Cell :=
  match f.rows.find? (fun p => p.1 == r) with
  | some p => ((f.cols.zip p.2).find? (fun q => q.1 == c)).bind Prod.snd
  | none => none

/-- The cells of the column at positional index `i`, in row order
(`df.iloc[:, i]`); rows too short yield `none`. -/
def colCellsIdx (f : DFrame) (i : Nat) : List (Option Cell) :=
  f.rows.map (fun p => p.2.getD i none)

/-- Positional index of a column name (first occurrence). -/
def colIdx? (f : DFrame) (c : ColName) : Option Nat :=
  f.cols.findIdx? (fun x => x == c)

/-- Recursive minimum of a list of rationals. -/
def listMin? : List ℚ → Option ℚ
  | [] => none
  | q :: rest =>
    match listMin? rest with
    | none => some q
    | some m => some (min q m)

/-- The numeric values observed in column `i` (text and missing cells do not
contribute; pandas `min` skips `NaN`). -/
def colNums (f : DFrame) (i : Nat) : List ℚ :=
  (colCellsIdx f i).filterMap (fun oc =>
    match oc with
    | some (Cell.num q) => some q
    | _ => none)

/-- `df.min()[i]`: the observed numeric minimum of column `i`; `none` models
the `NaN` pandas returns when the column has no observed numeric value. -/
def colMinQ (f : DFrame) (i : Nat) : Option ℚ := listMin? (colNums f i)

/-- `df[name].nunique()` for the column at index `i`: number of distinct
observed (non-missing) values. -/
def colNunique (f : DFrame) (i : Nat) : Nat :=
  (((colCellsIdx f i).filterMap id).dedup).length

/-- Whether column `i` has at least one missing value (`df.isnull().any()`). -/
def colHasMissing (f : DFrame) (i : Nat) : Bool :=
  (colCellsIdx f i).any (fun oc => oc.isNone)

/-- Characters of the whitelist in `Dataset.clean_column_names`
(wrap_in.py:450): the regex `[^A-Za-z0-9 .+-]+` replaces every maximal run
of characters outside this set by one underscore. -/
def goodChar (c : Char) : Bool :=
  c.isAlphanum || c = ' ' || c = '.' || c = '+' || c = '-'

/-- `re.sub("[^A-Za-z0-9 .+-]+", "_", s)` on the character list: each
maximal run of non-whitelisted characters collapses to one `_`. -/
def cleanChars : List Char → List Char
  | [] => []
  | [c] => if goodChar c then [c] else ['_']
  | c :: d :: rest =>
    if goodChar c then c :: cleanChars (d :: rest)
    else if goodChar d then '_' :: cleanChars (d :: rest)
    else cleanChars (d :: rest)

/-- The column-name substitution of `clean_column_names`. -/
def cleanName (s : String) : String := String.mk (cleanChars s.data)

/-- A character the substitution can output: whitelisted or `_`. -/
def okChar (c : Char) : Bool := goodChar c || c = '_'

/-- No two adjacent characters are both outside the whitelist. -/
def noBadPair : List Char → Bool
  | c :: d :: rest => (goodChar c || goodChar d) && noBadPair (d :: rest)
  | _ => true

/-- Normal form of the substitution output: only whitelist-or-underscore
characters, with no two adjacent non-whitelisted ones. -/
def normalChars (l : List Char) : Bool := l.all okChar && noBadPair l

/-- Fragment of Python float parsing used to model
`Series.astype("float64")` on a text cell: optional sign, digits, one
optional decimal point.  (Scientific notation and the special tokens are
omitted; no claim depends on which particular texts parse.) -/
def isFloatLit (s : String) : Bool :=
  let t := match s.data with
           | c :: rest => if c = '-' ∨ c = '+' then rest else c :: rest
           | [] => []
  let intPart := t.takeWhile (fun ch => !(ch = '.'))
  match t.dropWhile (fun ch => !(ch = '.')) with
  | [] => !intPart.isEmpty && intPart.all Char.isDigit
  | _ :: frac =>
    (!intPart.isEmpty || !frac.isEmpty) && intPart.all Char.isDigit
      && frac.all Char.isDigit

/-- Whether a cell survives `astype("float64")`: numbers and `NaN` always
do, text only when it parses as a float literal. -/
def cellCasts : Option Cell → Bool
  | none => true
  | some (Cell.num _) => true
  | some (Cell.txt s) => isFloatLit s

/-- Whether the whole column at index `i` can be cast to float64. -/
def colCastableAt (f : DFrame) (i : Nat) : Bool :=
  (colCellsIdx f i).all cellCasts

/-- `df[c].astype("float64")` succeeds: column selected by name.  The
`none` branch (name not among the columns) is unreachable from
`check_data_type`, which iterates `df.columns`. -/
def colCastable (f : DFrame) (c : ColName) : Bool :=
  match colIdx? f c with
  | some i => colCastableAt f i
  | none => true

/-- The `Dataset` class state (wrap_in.py:379-388). -/
structure Dataset where
  input_file : String
  df : Option DFrame
  column_meta : MetaDict
deriving DecidableEq

/-- `Dataset.__init__`. -/
def Dataset.mkEmpty : Dataset :=
  { input_file := "", df := none, column_meta := [] }

/-- An input file as the source reads it: the raw tab-split header line
(first field names the row-key column) and the parsed data rows. -/
structure FileData where
  header : List String
  body : List (RowKey × List (Option Cell))
deriving DecidableEq

/-- The message of `raise_on_duplicates` (wrap_in.py:22-27). -/
def dupMsg (l : List String) : String :=
  "Found duplicate column names:\n"
    ++ String.intercalate " " (l.map (fun name => sqt ++ name ++ sqt))
    ++ "\nPlease clean your header"

/-- `raise_on_duplicates` (wrap_in.py:15-27): `len(input_list)` differs
from `len(set(input_list))` exactly when the list has a repeat. -/
def raise_on_duplicates (l : List String) : Option Err :=
  if l.length ≠ l.dedup.length then some (Err.duplicateColumnName (dupMsg l))
  else none

/-- `Dataset.check_duplicate_col_names` (wrap_in.py:402-408): applies
`raise_on_duplicates` to the tab-split first line of the file. -/
def Dataset.check_duplicate_col_names (fd : FileData) : Option Err :=
  raise_on_duplicates fd.header

/-- The assertion message of `read_datafile` (wrap_in.py:419-422). -/
def dataTypeMsg (input_file : String) : String :=
  "data type in " ++ input_file ++ " should be: "
    ++ sqt ++ "real scalar" ++ sqt ++ ", " ++ sqt ++ "real location" ++ sqt
    ++ " or " ++ sqt ++ "discrete" ++ sqt

/-- `Dataset.read_datafile` (wrap_in.py:411-443) as a state transformer:
the returned `Dataset` is the object state at return or at the raise point.
Order of effects, as in the source: the data-type assertion (419), the
assignment `self.input_file = input_file` (424), the duplicate-header check
(425), loading the dataframe (431-434), and the per-column metadata
initialisation (437-441). -/
def Dataset.read_datafile (ds : Dataset) (fd : FileData) (input_file : String)
    (data_type : String) (error : Option ℚ) : Option Err × Dataset :=
  if data_type = "real scalar" ∨ data_type = "real location"
      ∨ data_type = "discrete" then
    let ds1 := { ds with input_file := input_file }
    match Dataset.check_duplicate_col_names fd with
    | some e => (some e, ds1)
    | none =>
      let f : DFrame :=
        { indexName := fd.header.headD "", cols := fd.header.tail,
          rows := fd.body }
      let meta := f.cols.foldl
        (fun acc col =>
          dictInsert acc col { type := data_type, error := error, missing := false })
        ds1.column_meta
      (none, { ds1 with df := some f, column_meta := meta })
  else (some (Err.assertionError (dataTypeMsg input_file)), ds)

/-- One iteration of the renaming loop of `clean_column_names`
(wrap_in.py:460-467), folded over the original column list.  The
accumulator carries the first raised error (a `KeyError` when
`column_meta.pop` misses), the column names so far (the dataframe rename
happens before the metadata move), and the metadata dict.  After an error
Python's loop has stopped, so the remaining names stay unchanged. -/
def cleanStep (acc : Option Err × List ColName × MetaDict) (c : ColName) :
    Option Err × List ColName × MetaDict :=
  match acc with
  | (some e, cs, m) => (some e, cs ++ [c], m)
  | (none, cs, m) =>
    let c2 := cleanName c
    if c2 = c then (none, cs ++ [c], m)
    else
      match dictGet? m c with
      | some v => (none, cs ++ [c2], dictInsert (dictRemove m c) c2 v)
      | none => (some (Err.keyError c), cs ++ [c2], m)

/-- `Dataset.clean_column_names` (wrap_in.py:446-471): cleans the row-key
name (453-458) then every column name (460-467).  Called on a dataset with
no dataframe the source would fail on `self.df.index.name`
(`AttributeError`). -/
def Dataset.clean_column_names (ds : Dataset) : Option Err × Dataset :=
  match ds.df with
  | none =>
    (some (Err.attributeError "NoneType object has no attribute index"), ds)
  | some f =>
    let idx2 := cleanName f.indexName
    let r := f.cols.foldl cleanStep (none, [], ds.column_meta)
    (r.1, { ds with df := some { f with indexName := idx2, cols := r.2.1 },
                    column_meta := r.2.2 })

/-- The message of the `CastFloat64` raise (wrap_in.py:486-488). -/
def castMsg (c : ColName) : String :=
  "Cannot cast column " ++ sqt ++ c ++ sqt ++ " to float\nCheck your input file!"

/-- One column of `check_data_type` (wrap_in.py:479-492): metadata lookup
(a `KeyError` when absent), then — for the two real roles — the float64
cast, raising `CastFloat64` naming the column when it fails.  The
`discrete` branch only logs. -/
def checkColErr (meta : MetaDict) (f : DFrame) (c : ColName) : Option Err :=
  match dictGet? meta c with
  | none => some (Err.keyError c)
  | some m =>
    if m.type = "real scalar" ∨ m.type = "real location" then
      if colCastable f c then none else some (Err.castFloat64 (castMsg c))
    else none

/-- `Dataset.check_data_type` (wrap_in.py:474-492): iterates the columns in
order and raises at the first failing one; the dataset is returned as the
post-call object state — the cast result is discarded, nothing is
mutated. -/
def Dataset.check_data_type (ds : Dataset) : Option Err × Dataset :=
  match ds.df with
  | none =>
    (some (Err.attributeError "NoneType object has no attribute columns"), ds)
  | some f => (f.cols.findSome? (checkColErr ds.column_meta f), ds)

/-- The `Input` class state (wrap_in.py:53-68). -/
structure Input where
  inputfolder : String
  missing_encoding : String
  separator : String
  input_datasets : List Dataset
  full_dataset : Dataset
  tolerate_error : Bool
  had_error : Bool
deriving DecidableEq

/-- `Input.__init__`: fresh session with an empty `Dataset` as
`full_dataset` and a clear sticky error flag. -/
def Input.mkSession (inputfolder missing_encoding separator : String)
    (tolerate_error : Bool) : Input :=
  { inputfolder := inputfolder, missing_encoding := missing_encoding,
    separator := separator, input_datasets := [], full_dataset := Dataset.mkEmpty,
    tolerate_error := tolerate_error, had_error := false }

/-- The `handle_error` decorator (wrap_in.py:73-85).  The body is a state
transformer whose `Except` value is the raise, with the object state at the
raise point.  The wrapper runs the body unless a prior error is sticky and
tolerance is off; a raise is logged (no state effect) and recorded by
setting `had_error`; nothing propagates, so the wrapped call returns an
`Option` result, `none` on skip or on error. -/
def Input.handle_error {α : Type}
    (f : Input → Except Err α × Input) (s : Input) : Option α × Input :=
  if s.tolerate_error || !s.had_error then
    match f s with
    | (Except.ok a, s1) => (some a, s1)
    | (Except.error _, s1) => (none, { s1 with had_error := true })
  else (none, s)

/-- Row cells a frame contributes for key `r` in an outer concatenation:
its stored row when the key is present, else one missing value per
column. -/
def rowCells (f : DFrame) (r : RowKey) : List (Option Cell) :=
  match f.rows.find? (fun p => p.1 == r) with
  | some p => p.2
  | none => f.cols.map (fun _ => none)

/-- The union of the frames' row-key sets.  `pd.concat(..., axis=1,
join="outer")` keeps every label once; only the resulting set matters to
the source (the claims never mention row order), so the order produced by
`dedup` stands in for pandas's union order. -/
def keysUnion (fs : List DFrame) : List RowKey :=
  ((fs.map DFrame.rowKeys).flatten).dedup

/-- All column names of the frames, in frame order (`pd.concat` keeps every
input column). -/
def colsFlat (fs : List DFrame) : List ColName :=
  (fs.map DFrame.cols).flatten

/-- The merged cells of row `r`: each frame's contribution in frame
order. -/
def cellsAt (fs : List DFrame) (r : RowKey) : List (Option Cell) :=
  (fs.map (fun f => rowCells f r)).flatten

/-- `pd.concat(df_lst, axis=1, join="outer")` on present frames: all
columns side by side, rows indexed by the union of the keys, cells absent
from a contributing frame left missing. -/
def outerConcat (fs : List DFrame) : DFrame :=
  { indexName := (fs.head?.map DFrame.indexName).getD ""
    cols := colsFlat fs
    rows := (keysUnion fs).map (fun r => (r, cellsAt fs r)) }

/-- All options present: the dataframes the merge loop collected, when
none of them is Python `None`. -/
def allSome : List (Option DFrame) → Option (List DFrame)
  | [] => some []
  | none :: _ => none
  | some f :: rest => (allSome rest).map (fun fs => f :: fs)

/-- `pd.concat` on the dataframe list (wrap_in.py:137): an empty list
raises `ValueError`, a `None` entry raises `TypeError`, otherwise the outer
concatenation. -/
def concatDfs (dfs : List (Option DFrame)) : Except Err DFrame :=
  if dfs.isEmpty then Except.error (Err.valueError "No objects to concatenate")
  else
    match allSome dfs with
    | none =>
      Except.error (Err.typeError "cannot concatenate object of type NoneType")
    | some fs => Except.ok (outerConcat fs)

/-- One column of the flag-setting loop of `search_missing_values`
(wrap_in.py:500-503): a column with a missing value gets
`column_meta[col]["missing"] = True` (a `KeyError` when the metadata entry
is absent stops the loop, keeping the flags set so far). -/
def missingStep (f : DFrame) (acc : Option Err × MetaDict) (p : Nat × ColName) :
    Option Err × MetaDict :=
  match acc with
  | (some e, m) => (some e, m)
  | (none, m) =>
    if colHasMissing f p.1 then
      match dictGet? m p.2 with
      | none => (some (Err.keyError p.2), m)
      | some v => (none, dictInsert m p.2 { v with missing := true })
    else (none, m)

/-- `Dataset.search_missing_values` (wrap_in.py:495-507) on the frame `f`
of the dataset: flags every column that has a missing value. -/
def searchMissingMeta (f : DFrame) (m : MetaDict) : Option Err × MetaDict :=
  f.cols.enum.foldl (missingStep f) (none, m)

/-- Lines 138-144 of `merge_dataframes`: the duplicate-name check on the
merged columns (`self.full_dataset.df.columns` raises `AttributeError` when
no dataframe is present), the shape logging (no effect), and
`search_missing_values` on the merged dataset. -/
def afterMergeChecks (s : Input) : Except Err Unit × Input :=
  match s.full_dataset.df with
  | none =>
    (Except.error (Err.attributeError "NoneType object has no attribute columns"),
     s)
  | some f =>
    match raise_on_duplicates f.cols with
    | some e => (Except.error e, s)
    | none =>
      let r := searchMissingMeta f s.full_dataset.column_meta
      let s1 := { s with full_dataset := { s.full_dataset with column_meta := r.2 } }
      match r.1 with
      | some e => (Except.error e, s1)
      | none => (Except.ok (), s1)

/-- The metadata union accumulated by the merge loop (wrap_in.py:134-136):
`full_dataset.column_meta = {**full_dataset.column_meta, **dataset.column_meta}`
for each dataset in order. -/
def mergedMeta (s : Input) : MetaDict :=
  s.input_datasets.foldl (fun acc d => dictUnion acc d.column_meta)
    s.full_dataset.column_meta

/-- The body of `Input.merge_dataframes` (wrap_in.py:118-144), before the
`handle_error` wrapping: with exactly one dataset it becomes the
`full_dataset` (129-130); otherwise the loop unions the metadata and
collects the dataframes (133-136) and `pd.concat` builds the merged frame
(137).  Either way the duplicate check and the missing-value search follow
(138-144). -/
def Input.merge_dataframes_body (s : Input) : Except Err Unit × Input :=
  match s.input_datasets with
  | [d] => afterMergeChecks { s with full_dataset := d }
  | _ =>
    let s1 := { s with full_dataset :=
      { s.full_dataset with column_meta := mergedMeta s } }
    match concatDfs (s.input_datasets.map Dataset.df) with
    | Except.error e => (Except.error e, s1)
    | Except.ok f =>
      afterMergeChecks
        { s1 with full_dataset := { s1.full_dataset with df := some f } }

/-- `Input.merge_dataframes`: the body under the `handle_error`
decorator. -/
def Input.merge_dataframes (s : Input) : Option Unit × Input :=
  Input.handle_error Input.merge_dataframes_body s

/-- A line of the `.hd2` header file (`create_hd2_file`,
wrap_in.py:169-206), structured: each written line is one constructor, in
order of the `hd2.write` calls. -/
inductive Hd2Line where
  | numFormats (n : Nat)
  | blank
  | numAttributes (n : Nat)
  | separatorChar (s : String)
  | dummy (indexName : String)
  | realScalar (idx : Nat) (name : String) (zeroPoint : ℚ) (relError : Option ℚ)
  | realLocation (idx : Nat) (name : String) (error : Option ℚ)
  | discreteNominal (idx : Nat) (name : String) (range : Nat)
deriving DecidableEq

/-- The assertion message at wrap_in.py:188-189 (source spelling kept). -/
def minMsg (name : ColName) : String :=
  "min value for " ++ name ++ " shoud be >= 0.0"

/-- The per-column body of the `create_hd2_file` loop (wrap_in.py:184-206),
over the enumerated column list.  For a `real scalar` column the zero-point
assertion compares `df.min()[idx]` with `0.0`; a `NaN` minimum (no observed
numeric value) also fails the `>=` test.  A role string matching none of
the three `if`s writes nothing. -/
def hd2Fold (f : DFrame) (meta : MetaDict) :
    List (Nat × ColName) → Except Err (List Hd2Line)
  | [] => Except.ok []
  | (i, name) :: rest =>
    match dictGet? meta name with
    | none => Except.error (Err.keyError name)
    | some m =>
      if m.type = "real scalar" then
        match colMinQ f i with
        | some mn =>
          if 0 ≤ mn then
            (hd2Fold f meta rest).map
              (fun ls => Hd2Line.realScalar (i + 1) name 0 m.error :: ls)
          else Except.error (Err.assertionError (minMsg name))
        | none => Except.error (Err.assertionError (minMsg name))
      else if m.type = "real location" then
        (hd2Fold f meta rest).map
          (fun ls => Hd2Line.realLocation (i + 1) name m.error :: ls)
      else if m.type = "discrete" then
        (hd2Fold f meta rest).map
          (fun ls => Hd2Line.discreteNominal (i + 1) name (colNunique f i) :: ls)
      else (hd2Fold f meta rest)

/-- The fixed head of the `.hd2` file (wrap_in.py:176-183). -/
def hd2Head (s : Input) (f : DFrame) : List Hd2Line :=
  [Hd2Line.numFormats 2, Hd2Line.blank,
   Hd2Line.numAttributes (f.cols.length + 1),
   Hd2Line.separatorChar s.separator, Hd2Line.blank,
   Hd2Line.dummy f.indexName]

/-- The body of `Input.create_hd2_file` (wrap_in.py:169-206): the written
lines, or the raise.  (On a raise the source leaves the already written
lines in a partial file; the model returns the failure point.) -/
def Input.create_hd2_file_body (s : Input) : Except Err (List Hd2Line) :=
  match s.full_dataset.df with
  | none =>
    Except.error (Err.attributeError "NoneType object has no attribute columns")
  | some f =>
    (hd2Fold f s.full_dataset.column_meta f.cols.enum).map
      (fun ls => hd2Head s f ++ ls)

/-- A line of the `.model` file (`create_model_file`, wrap_in.py:236-247).
The payload of the three bucket lines is the string the source interpolates
after the model name. -/
inductive ModelLine where
  | modelIndex (i n : Nat)
  | ignore (i : Nat)
  | singleNormalCn (payload : String)
  | singleNormalCm (payload : String)
  | singleMultinomial (payload : String)
deriving DecidableEq

/-- Python `" ".join(lst)`. -/
def joinSpace (l : List String) : String := String.intercalate " " l

/-- Python `" ".format(args)` as written at wrap_in.py:247: the template
`" "` holds no replacement field, so `format` returns it unchanged and the
argument is dropped. -/
def pyFormatSpace (_args : List String) : String := " "

/-- The bucket assignment of `create_model_file` (wrap_in.py:220-228): each
column's 1-based index (as text) goes to the normals, the
normals-with-missing, or the multinomial bucket, by role and missing flag;
a role matching no `if` goes nowhere. -/
def bucketFold (meta : MetaDict) :
    List (Nat × ColName) →
      Except Err (List String × List String × List String)
  | [] => Except.ok ([], [], [])
  | (i, name) :: rest =>
    match dictGet? meta name with
    | none => Except.error (Err.keyError name)
    | some m =>
      match bucketFold meta rest with
      | Except.error e => Except.error e
      | Except.ok (cn, cm, mu) =>
        if m.type = "real scalar" ∨ m.type = "real location" then
          if m.missing then Except.ok (cn, toString (i + 1) :: cm, mu)
          else Except.ok (toString (i + 1) :: cn, cm, mu)
        else if m.type = "discrete" then
          Except.ok (cn, cm, toString (i + 1) :: mu)
        else Except.ok (cn, cm, mu)

/-- The body of `Input.create_model_file` (wrap_in.py:210-247): buckets the
columns, counts one model for the ignored row-key plus one per non-empty
bucket (229-234), and writes the lines (236-247).  The normal buckets are
joined with spaces; the multinomial line's payload comes from the
`" ".format(...)` call, which drops the index list. -/
def Input.create_model_file_body (s : Input) : Except Err (List ModelLine) :=
  match s.full_dataset.df with
  | none =>
    Except.error (Err.attributeError "NoneType object has no attribute columns")
  | some f =>
    match bucketFold s.full_dataset.column_meta f.cols.enum with
    | Except.error e => Except.error e
    | Except.ok (cn, cm, mu) =>
      let models_count :=
        1 + (if cn.isEmpty then 0 else 1) + (if cm.isEmpty then 0 else 1)
          + (if mu.isEmpty then 0 else 1)
      Except.ok
        ([ModelLine.modelIndex 0 models_count, ModelLine.ignore 0]
          ++ (if cn.isEmpty then [] else [ModelLine.singleNormalCn (joinSpace cn)])
          ++ (if cm.isEmpty then [] else [ModelLine.singleNormalCm (joinSpace cm)])
          ++ (if mu.isEmpty then []
              else [ModelLine.singleMultinomial (pyFormatSpace mu)]))

/-- The column names of a dataset's dataframe (empty when no dataframe). -/
def Dataset.colNames (ds : Dataset) : List ColName :=
  (ds.df.map DFrame.cols).getD []

/-- The row-key (index) name of a dataset's dataframe. -/
def Dataset.indexNameD (ds : Dataset) : String :=
  (ds.df.map DFrame.indexName).getD ""

/-- A column declared with one of the two real roles, per its metadata. -/
def declaredNumeric (meta : MetaDict) (c : ColName) : Bool :=
  match dictGet? meta c with
  | some m => m.type == "real scalar" || m.type == "real location"
  | none => false

/-- A column declared `real scalar`, per its metadata. -/
def isRealScalarCol (meta : MetaDict) (c : ColName) : Bool :=
  match dictGet? meta c with
  | some m => m.type == "real scalar"
  | none => false

/-- The zero-point assertion test of `create_hd2_file` (wrap_in.py:188):
`df.min()[idx] >= 0.0`.  A column with no observed numeric value has a
`NaN` minimum, which fails the test. -/
def zeroPointOk (f : DFrame) (i : Nat) : Bool :=
  match colMinQ f i with
  | some m => decide (0 ≤ m)
  | none => false

/-- The first enumerated column failing the zero-point assertion (the one
`create_hd2_file` raises on, if any). -/
def hd2FirstFail (f : DFrame) (meta : MetaDict) : Option (Nat × ColName) :=
  f.cols.enum.find? (fun p => isRealScalarCol meta p.2 && !zeroPointOk f p.1)

/-- Whether some `real scalar` column of the merged dataframe has a
negative observed minimum. -/
def hasNegMinRealScalar (s : Input) : Bool :=
  match s.full_dataset.df with
  | some f =>
    f.cols.enum.any (fun p =>
      isRealScalarCol s.full_dataset.column_meta p.2 &&
        (match colMinQ f p.1 with
         | some q => decide (q < 0)
         | none => false))
  | none => false

/-!
Concrete fixtures for counterexamples and witnesses: the two-file scenario
of the specification (a `discrete` column `group` over rows g1-g3 and a
`real scalar` column `expr` over rows g1-g2), plus small datasets exercising
the failure paths.
-/

/-- Frame of `A.tsv`: row-key `gene`, one discrete column `group`. -/
def fA : DFrame :=
  { indexName := "gene", cols := ["group"],
    rows := [("g1", [some (Cell.txt "x")]), ("g2", [some (Cell.txt "y")]),
             ("g3", [some (Cell.txt "x")])] }

/-- Frame of `B.tsv`: row-key `gene`, one real column `expr`, no row g3. -/
def fB : DFrame :=
  { indexName := "gene", cols := ["expr"],
    rows := [("g1", [some (Cell.num 1)]), ("g2", [some (Cell.num 2)])] }

/-- Dataset loaded from `A.tsv`. -/
def dsA : Dataset :=
  { input_file := "A.tsv", df := some fA,
    column_meta := [("group", ⟨"discrete", none, false⟩)] }

/-- Dataset loaded from `B.tsv`. -/
def dsB : Dataset :=
  { input_file := "B.tsv", df := some fB,
    column_meta := [("expr", ⟨"real scalar", some (1/100), false⟩)] }

/-- Session holding the two datasets, ready to merge. -/
def sAB : Input :=
  { Input.mkSession "" "?" "\t" false with input_datasets := [dsA, dsB] }

/-- Session holding exactly one dataset. -/
def sSingle : Input :=
  { Input.mkSession "" "?" "\t" false with input_datasets := [dsA] }

/-- Metadata value of the earlier dataset for the shared key. -/
def metaEarly : Meta := ⟨"discrete", none, false⟩

/-- Metadata value of the later dataset for the shared key. -/
def metaLater : Meta := ⟨"real scalar", some 1, false⟩

/-- Two datasets whose metadata maps collide on the key `shared`. -/
def dsM1 : Dataset :=
  { input_file := "m1", df := none, column_meta := [("shared", metaEarly)] }

/-- Second colliding dataset; its metadata should win the union. -/
def dsM2 : Dataset :=
  { input_file := "m2", df := none, column_meta := [("shared", metaLater)] }

/-- Session holding the two metadata-colliding datasets. -/
def sColl : Input :=
  { Input.mkSession "" "?" "\t" false with input_datasets := [dsM1, dsM2] }

/-- The merged frame of the scenario: `group` then `expr`, with `expr`
missing at g3. -/
def sMerged : Input :=
  { Input.mkSession "" "?" "\t" false with
    full_dataset :=
      { input_file := "", df := some (outerConcat [fA, fB]),
        column_meta := [("group", ⟨"discrete", none, false⟩),
                        ("expr", ⟨"real scalar", some (1/100), true⟩)] } }

/-- A fresh session with the default construction arguments. -/
def s0 : Input := Input.mkSession "" "?" "\t" false

/-- A body that always raises, for exercising `handle_error`. -/
def bodyRaise : Input → Except Err Unit × Input :=
  fun s => (Except.error (Err.castFloat64 "boom"), s)

/-- A session whose sticky error flag is already set (tolerance off). -/
def sHadErr : Input := { s0 with had_error := true }

/-- Input file whose raw header repeats the name `a`. -/
def fdDup : FileData := { header := ["gene", "a", "a"], body := [] }

/-- Dataset whose two column names collide after cleaning. -/
def dsCollide : Dataset :=
  { input_file := "c.tsv",
    df := some { indexName := "gene", cols := ["a!", "a?"], rows := [] },
    column_meta := [("a!", ⟨"discrete", none, false⟩),
                    ("a?", ⟨"discrete", none, false⟩)] }

/-- Dataset with one dirty column name and one clean one. -/
def dsDirty : Dataset :=
  { input_file := "d.tsv",
    df := some { indexName := "gene!", cols := ["a%b", "ok"],
                 rows := [("g1", [some (Cell.num 1), some (Cell.num 2)])] },
    column_meta := [("a%b", ⟨"real scalar", some 1, false⟩),
                    ("ok", ⟨"real location", some 1, false⟩)] }

/-- Dataset whose declared-numeric column holds a non-numeric text cell. -/
def dsBadNum : Dataset :=
  { input_file := "bad.tsv",
    df := some { indexName := "gene", cols := ["x"],
                 rows := [("g1", [some (Cell.txt "abc")])] },
    column_meta := [("x", ⟨"real scalar", some 1, false⟩)] }

/-- Dataset whose declared-numeric columns are all castable. -/
def dsGoodNum : Dataset :=
  { input_file := "good.tsv",
    df := some { indexName := "gene", cols := ["y"],
                 rows := [("g1", [some (Cell.num 1)]), ("g2", [none])] },
    column_meta := [("y", ⟨"real location", some 1, false⟩)] }

/-- Merged session whose only real-scalar column has no observed value:
its pandas minimum is `NaN`, which fails the zero-point assertion although
no observed minimum is below zero. -/
def sAllMissing : Input :=
  { Input.mkSession "" "?" "\t" false with
    full_dataset :=
      { input_file := "", df := some
          { indexName := "gene", cols := ["v"],
            rows := [("g1", [none]), ("g2", [none])] },
        column_meta := [("v", ⟨"real scalar", some (1/100), true⟩)] } }

/-- Merged session whose real-scalar column `w` has a negative observed
minimum (the specification's negative-minimum scenario). -/
def sNegMin : Input :=
  { Input.mkSession "" "?" "\t" false with
    full_dataset :=
      { input_file := "", df := some
          { indexName := "gene", cols := ["w"],
            rows := [("g1", [some (Cell.num (-1))]), ("g2", [some (Cell.num 2)])] },
        column_meta := [("w", ⟨"real scalar", some 1, false⟩)] } }

/-- Merged session whose real-scalar column `a` has nonnegative values. -/
def sPosMin : Input :=
  { Input.mkSession "" "?" "\t" false with
    full_dataset :=
      { input_file := "", df := some
          { indexName := "gene", cols := ["a"],
            rows := [("g1", [some (Cell.num 1)]), ("g2", [some (Cell.num 2)])] },
        column_meta := [("a", ⟨"real scalar", some 1, false⟩)] } }

/-! Lemmas about the name-cleaning substitution. -/

/-- The underscore is itself outside the whitelist (so a second
substitution maps it to an underscore again). -/
theorem goodChar_underscore : goodChar '_' = false := by decide

/-- Every character the substitution outputs is whitelisted or `_`. -/
theorem cleanChars_all_ok (l : List Char) : (cleanChars l).all okChar = true := by
  induction l using cleanChars.induct with
  | case1 => rfl
  | case2 c h => simp [cleanChars, h, okChar]
  | case3 c h => simp [cleanChars, h, okChar]
  | case4 c d rest h ih => simp [cleanChars, h, okChar, ih]
  | case5 c d rest h hd ih => simp [cleanChars, h, hd, okChar, ih]
  | case6 c d rest h hd ih => simpa [cleanChars, h, hd, okChar] using ih

/-- The substitution keeps a whitelisted head character in place. -/
theorem cleanChars_head_good (d : Char) (rest : List Char) (hd : goodChar d = true) :
    ∃ t, cleanChars (d :: rest) = d :: t := by
  cases rest with
  | nil => exact ⟨[], by simp [cleanChars, hd]⟩
  | cons e r => exact ⟨cleanChars (e :: r), by simp [cleanChars, hd]⟩

/-- Prepending a whitelisted character preserves `noBadPair`. -/
theorem noBadPair_cons_of_good (a : Char) (l : List Char) (ha : goodChar a = true)
    (hl : noBadPair l = true) : noBadPair (a :: l) = true := by
  cases l with
  | nil => rfl
  | cons b t => simp [noBadPair, ha, hl]

/-- The substitution never outputs two adjacent non-whitelisted
characters: each maximal bad run became a single underscore. -/
theorem cleanChars_noBadPair (l : List Char) : noBadPair (cleanChars l) = true := by
  induction l using cleanChars.induct with
  | case1 => rfl
  | case2 c h => simp [cleanChars, h, noBadPair]
  | case3 c h => simp [cleanChars, h, noBadPair]
  | case4 c d rest h ih =>
    simp only [cleanChars, h, if_true]
    exact noBadPair_cons_of_good c _ h ih
  | case5 c d rest h hd ih =>
    simp only [cleanChars, h, hd, if_false, if_true]
    obtain ⟨t, ht⟩ := cleanChars_head_good d rest hd
    rw [ht] at ih ⊢
    simp [noBadPair, hd, ih]
  | case6 c d rest h hd ih =>
    simpa [cleanChars, h, hd] using ih

/-- A normal-form character list is a fixed point of the substitution. -/
theorem cleanChars_of_normal (l : List Char) (hok : l.all okChar = true)
    (hnb : noBadPair l = true) : cleanChars l = l := by
  induction l using cleanChars.induct with
  | case1 => rfl
  | case2 c h => simp [cleanChars, h]
  | case3 c h =>
    have hokc : okChar c = true := by simpa using hok
    have hc : c = '_' := by
      rcases (by simpa [okChar] using hokc : goodChar c = true ∨ c = '_') with h1 | h1
      · exact absurd h1 h
      · exact h1
    simp [cleanChars, h, hc]
  | case4 c d rest h ih =>
    rw [List.all_cons, Bool.and_eq_true] at hok
    have hnb2 : noBadPair (d :: rest) = true := by
      have := (by simpa [noBadPair] using hnb :
        (goodChar c = true ∨ goodChar d = true) ∧ noBadPair (d :: rest) = true)
      exact this.2
    simp [cleanChars, h, ih hok.2 hnb2]
  | case5 c d rest h hd ih =>
    have hokc : okChar c = true := by
      have := (List.all_eq_true.mp hok) c (by simp)
      simpa using this
    have hc : c = '_' := by
      rcases (by simpa [okChar] using hokc : goodChar c = true ∨ c = '_') with h1 | h1
      · exact absurd h1 h
      · exact h1
    rw [List.all_cons, Bool.and_eq_true] at hok
    have hok2 : (d :: rest).all okChar = true := hok.2
    have hnb2 : noBadPair (d :: rest) = true := by
      have := (by simpa [noBadPair] using hnb :
        (goodChar c = true ∨ goodChar d = true) ∧ noBadPair (d :: rest) = true)
      exact this.2
    simp [cleanChars, h, hd, hc, ih hok2 hnb2]
  | case6 c d rest h hd ih =>
    exfalso
    have : (goodChar c || goodChar d) = true := by
      have := (by simpa [noBadPair] using hnb :
        (goodChar c = true ∨ goodChar d = true) ∧ noBadPair (d :: rest) = true)
      rcases this.1 with h1 | h1 <;> simp [h1]
    rcases Bool.or_eq_true_iff.mp this with h1 | h1
    · exact h h1
    · exact hd h1

/-- The substitution is idempotent on character lists. -/
theorem cleanChars_idem (l : List Char) : cleanChars (cleanChars l) = cleanChars l :=
  cleanChars_of_normal _ (cleanChars_all_ok l) (cleanChars_noBadPair l)

/-- The substitution is idempotent on names. -/
theorem cleanName_idem (s : String) : cleanName (cleanName s) = cleanName s := by
  unfold cleanName
  exact congrArg String.mk (cleanChars_idem s.data)

/-- Every character of a cleaned name is whitelisted or `_`. -/
theorem cleanName_data_ok (s : String) : (cleanName s).data.all okChar = true :=
  cleanChars_all_ok s.data

/-! Lemmas about the dict model. -/

/-- Abbreviation for `(a == b) = false` from disequality. -/
theorem beqF {a b : String} (h : a ≠ b) : (a == b) = false :=
  beq_eq_false_iff_ne.mpr h

/-- Cons-step characterisation of dict lookup. -/
theorem get?_cons (p : ColName × Meta) (m : MetaDict) (k : ColName) :
    dictGet? (p :: m) k = if p.1 = k then some p.2 else dictGet? m k := by
  by_cases h : p.1 = k
  · simp [dictGet?, List.find?_cons, h]
  · simp [dictGet?, List.find?_cons, beqF h, h]

/-- A dict lookup misses exactly when no entry bears the key. -/
theorem get?_eq_none_iff (m : MetaDict) (k : ColName) :
    dictGet? m k = none ↔ ∀ p ∈ m, p.1 ≠ k := by
  constructor
  · intro h p hp hk
    have hf : m.find? (fun q => q.1 == k) = none := by
      cases hfind : m.find? (fun q => q.1 == k) with
      | none => rfl
      | some q => rw [dictGet?, hfind] at h; simp at h
    have := List.find?_eq_none.mp hf p hp
    simp [hk] at this
  · intro h
    have hf : m.find? (fun q => q.1 == k) = none :=
      List.find?_eq_none.mpr (fun p hp => by simpa using h p hp)
    rw [dictGet?, hf]
    rfl

/-- Absent membership means no entry bears the key. -/
theorem dictMem_false_iff (m : MetaDict) (k : ColName) :
    dictMem m k = false ↔ ∀ p ∈ m, p.1 ≠ k := by
  simp [dictMem, List.any_eq_true]

/-- Updating the entries of a key that is absent changes nothing. -/
theorem map_update_of_not_mem (m : MetaDict) (k : ColName) (v : Meta) :
    dictMem m k = false →
    m.map (fun p => if p.1 == k then (k, v) else p) = m := by
  induction m with
  | nil => intro _; rfl
  | cons p t ih =>
    intro h
    have h' := (dictMem_false_iff _ _).mp h
    have hp : p.1 ≠ k := h' p (by simp)
    have ht : dictMem t k = false :=
      (dictMem_false_iff t k).mpr (fun q hq => h' q (by simp [hq]))
    rw [List.map_cons, ih ht]
    congr 1
    simp [beqF hp]

/-- Lookup after the in-place-update form of insertion. -/
theorem get?_map_update (m : MetaDict) (k : ColName) (v : Meta) (k' : ColName) :
    dictGet? (m.map (fun p => if p.1 == k then (k, v) else p)) k' =
      if k' = k then (if dictMem m k then some v else none)
      else dictGet? m k' := by
  induction m with
  | nil => by_cases h : k' = k <;> simp [dictGet?, dictMem, h]
  | cons p t ih =>
    obtain ⟨a, b⟩ := p
    rw [List.map_cons]
    by_cases hp : a = k
    · subst hp
      simp only [beq_self_eq_true, if_true]
      rw [get?_cons, get?_cons]
      by_cases hk : k' = a
      · subst hk
        simp [dictMem]
      · have hak : ¬ a = k' := fun hh => hk hh.symm
        simp only [hak, if_false, ite_false]
        rw [ih]
        simp [hk]
    · simp only [beqF hp, Bool.false_eq_true, if_false, ite_false]
      rw [get?_cons, get?_cons]
      have hmem : dictMem ((a, b) :: t) k = dictMem t k := by
        simp [dictMem, beqF hp]
      by_cases hak : a = k'
      · have hk : ¬ k' = k := fun hh => hp (hak.trans hh)
        simp [hak, hk]
      · simp only [hak, if_false, ite_false]
        rw [ih, hmem]

/-- Lookup after the append form of insertion (key previously absent). -/
theorem get?_append_single (m : MetaDict) (k : ColName) (v : Meta) (k' : ColName)
    (h : dictMem m k = false) :
    dictGet? (m ++ [(k, v)]) k' = if k' = k then some v else dictGet? m k' := by
  induction m with
  | nil =>
    by_cases hk : k' = k
    · simp [dictGet?, List.find?_cons, hk]
    · simp [dictGet?, List.find?_cons, beqF (fun hh : k = k' => hk hh.symm), hk]
  | cons p t ih =>
    have hp : p.1 ≠ k := ((dictMem_false_iff _ _).mp h) p (by simp)
    have ht : dictMem t k = false :=
      (dictMem_false_iff t k).mpr
        (fun q hq => ((dictMem_false_iff _ _).mp h) q (by simp [hq]))
    rw [List.cons_append, get?_cons, get?_cons]
    by_cases hpk : p.1 = k'
    · have hk : ¬ k' = k := fun hh => hp (hpk.trans hh)
      simp [hpk, hk]
    · simp only [hpk, if_false, ite_false]
      exact ih ht

/-- Python `d[k] = v` then `d[x]`: the inserted key reads back the value,
other keys are untouched. -/
theorem get?_dictInsert (m : MetaDict) (k : ColName) (v : Meta) (k' : ColName) :
    dictGet? (dictInsert m k v) k' = if k' = k then some v else dictGet? m k' := by
  by_cases hm : dictMem m k
  · rw [dictInsert, if_pos hm, get?_map_update, hm]
    simp
  · rw [dictInsert, if_neg hm]
    exact get?_append_single m k v k' (Bool.not_eq_true _ ▸ hm)

/-- `find?` commutes with a filter that keeps everything the predicate
could match. -/
theorem find?_filter_of_imp {α : Type} (l : List α) (p q : α → Bool)
    (h : ∀ x, p x = true → q x = true) :
    (l.filter q).find? p = l.find? p := by
  induction l with
  | nil => rfl
  | cons x t ih =>
    by_cases hq : q x = true
    · rw [List.filter_cons_of_pos hq, List.find?_cons, List.find?_cons]
      cases hp : p x
      · exact ih
      · rfl
    · have hp : p x = false := by
        cases hpx : p x
        · rfl
        · exact absurd (h x hpx) hq
      rw [List.filter_cons_of_neg (by simp [hq]), List.find?_cons, hp, ih]

/-- Removing one key leaves the lookup of any other key unchanged. -/
theorem get?_dictRemove_ne (m : MetaDict) (k k' : ColName) (h : k' ≠ k) :
    dictGet? (dictRemove m k) k' = dictGet? m k' := by
  unfold dictGet? dictRemove
  rw [find?_filter_of_imp]
  intro p hp
  have hpk : p.1 = k' := by simpa using hp
  rw [hpk]
  simp [beqF h]

/-- A key absent from the right dict is looked up in the left one after
the union. -/
theorem get?_dictUnion_none (b : MetaDict) : ∀ (a : MetaDict) (k : ColName),
    dictGet? b k = none → dictGet? (dictUnion a b) k = dictGet? a k := by
  induction b with
  | nil => intro a k _; rfl
  | cons p t ih =>
    intro a k hk
    rw [get?_cons] at hk
    by_cases hp : p.1 = k
    · simp [hp] at hk
    · simp only [hp, if_false, ite_false] at hk
      show dictGet? (dictUnion (dictInsert a p.1 p.2) t) k = dictGet? a k
      rw [ih _ _ hk, get?_dictInsert, if_neg (fun h => hp h.symm)]

/-- A key present in the right dict (with unique keys) wins the union:
Python `{**a, **b}` takes `b`'s entry on collision. -/
theorem get?_dictUnion_some (b : MetaDict) : ∀ (a : MetaDict) (k : ColName) (v : Meta),
    (b.map Prod.fst).Nodup → dictGet? b k = some v →
    dictGet? (dictUnion a b) k = some v := by
  induction b with
  | nil => intro a k v _ hk; simp [dictGet?] at hk
  | cons p t ih =>
    intro a k v hb hk
    rw [List.map_cons, List.nodup_cons] at hb
    rw [get?_cons] at hk
    by_cases hp : p.1 = k
    · have hv : v = p.2 := by simp [hp] at hk; exact hk.symm
      have htk : dictGet? t k = none := by
        rw [get?_eq_none_iff]
        intro q hq hqk
        exact hb.1 (by rw [← hp] at hqk; exact hqk ▸ List.mem_map_of_mem Prod.fst hq)
      show dictGet? (dictUnion (dictInsert a p.1 p.2) t) k = some v
      rw [get?_dictUnion_none _ _ _ htk, get?_dictInsert, hp, if_pos rfl, hv]
    · simp only [hp, if_false, ite_false] at hk
      show dictGet? (dictUnion (dictInsert a p.1 p.2) t) k = some v
      exact ih _ _ _ hb.2 hk

/-- Folding further unions that all miss the key preserves its value. -/
theorem foldl_union_keep (post : List Dataset) : ∀ (acc : MetaDict) (k : ColName)
    (v : Meta), dictGet? acc k = some v →
    (∀ e ∈ post, dictGet? e.column_meta k = none) →
    dictGet? (post.foldl (fun acc d => dictUnion acc d.column_meta) acc) k
      = some v := by
  induction post with
  | nil => intro acc k v hacc _; exact hacc
  | cons e t ih =>
    intro acc k v hacc hpost
    rw [List.foldl_cons]
    exact ih _ _ _ (by rw [get?_dictUnion_none _ _ _ (hpost e (by simp)), hacc])
      (fun e' he' => hpost e' (by simp [he']))

/-! Lemmas about the renaming fold of `clean_column_names`. -/

/-- One cleaning step preserves the presence of any metadata key that is a
fixed point of the substitution (only non-fixed keys are popped). -/
theorem cleanStep_keeps (acc : Option Err × List ColName × MetaDict)
    (c k : ColName) (h : (dictGet? acc.2.2 k).isSome = true)
    (hfix : cleanName k = k) :
    (dictGet? (cleanStep acc c).2.2 k).isSome = true := by
  obtain ⟨e, cs, m⟩ := acc
  cases e with
  | some e => exact h
  | none =>
    unfold cleanStep
    by_cases hc : cleanName c = c
    · simpa [hc] using h
    · cases hget : dictGet? m c with
      | some v =>
        simp only [if_neg hc, hget]
        rw [get?_dictInsert]
        by_cases hk : k = cleanName c
        · simp [hk]
        · rw [if_neg hk, get?_dictRemove_ne]
          · exact h
          · intro hkc
            exact hc (by rw [← hkc]; exact hfix)
      | none => simpa [hc, hget] using h

/-- The whole fold preserves fixed-point metadata keys. -/
theorem cleanFold_keeps : ∀ (L : List ColName)
    (acc : Option Err × List ColName × MetaDict) (k : ColName),
    (dictGet? acc.2.2 k).isSome = true → cleanName k = k →
    (dictGet? (L.foldl cleanStep acc).2.2 k).isSome = true := by
  intro L
  induction L with
  | nil => intro acc k h _; exact h
  | cons c t ih =>
    intro acc k h hfix
    rw [List.foldl_cons]
    exact ih _ k (cleanStep_keeps acc c k h hfix) hfix

/-- On a dataset with unique column names whose metadata covers every
column, the renaming fold raises nothing, turns the column list into its
pointwise-cleaned image, and keeps a metadata entry for every cleaned
name. -/
theorem cleanFold_ok : ∀ (L : List ColName) (cs0 : List ColName) (m0 : MetaDict),
    L.Nodup → (∀ c ∈ L, (dictGet? m0 c).isSome = true) →
    (L.foldl cleanStep (none, cs0, m0)).1 = none ∧
    (L.foldl cleanStep (none, cs0, m0)).2.1 = cs0 ++ L.map cleanName ∧
    (∀ c ∈ L,
      (dictGet? (L.foldl cleanStep (none, cs0, m0)).2.2 (cleanName c)).isSome
        = true) := by
  intro L
  induction L with
  | nil => intro cs0 m0 _ _; exact ⟨rfl, by simp, by simp⟩
  | cons c t ih =>
    intro cs0 m0 hnd hcov
    rw [List.nodup_cons] at hnd
    have hcovc := hcov c (by simp)
    have hcovt : ∀ x ∈ t, (dictGet? m0 x).isSome = true :=
      fun x hx => hcov x (by simp [hx])
    rw [List.foldl_cons]
    by_cases hc : cleanName c = c
    · have hstep : cleanStep (none, cs0, m0) c = (none, cs0 ++ [c], m0) := by
        simp [cleanStep, hc]
      rw [hstep]
      obtain ⟨h1, h2, h3⟩ := ih (cs0 ++ [c]) m0 hnd.2 hcovt
      refine ⟨h1, ?_, ?_⟩
      · rw [h2, List.map_cons, hc, List.append_assoc]
        rfl
      · intro x hx
        rcases List.mem_cons.mp hx with hx1 | hx1
        · subst hx1
          rw [hc]
          exact cleanFold_keeps t _ x hcovc (by rw [hc])
        · exact h3 x hx1
    · obtain ⟨v, hv⟩ := Option.isSome_iff_exists.mp hcovc
      have hstep : cleanStep (none, cs0, m0) c =
          (none, cs0 ++ [cleanName c],
           dictInsert (dictRemove m0 c) (cleanName c) v) := by
        simp [cleanStep, hc, hv]
      rw [hstep]
      have hcovt' : ∀ x ∈ t,
          (dictGet? (dictInsert (dictRemove m0 c) (cleanName c) v) x).isSome
            = true := by
        intro x hx
        rw [get?_dictInsert]
        by_cases hxc : x = cleanName c
        · simp [hxc]
        · rw [if_neg hxc, get?_dictRemove_ne]
          · exact hcovt x hx
          · intro hxeq
            exact hnd.1 (hxeq ▸ hx)
      obtain ⟨h1, h2, h3⟩ := ih (cs0 ++ [cleanName c]) _ hnd.2 hcovt'
      refine ⟨h1, ?_, ?_⟩
      · rw [h2, List.map_cons, List.append_assoc]
        rfl
      · intro x hx
        rcases List.mem_cons.mp hx with hx1 | hx1
        · subst hx1
          apply cleanFold_keeps t _ _ _ (cleanName_idem x)
          rw [get?_dictInsert, if_pos rfl]
          rfl
        · exact h3 x hx1

/-- On already-fixed names the renaming fold changes nothing. -/
theorem cleanFold_fixed : ∀ (L : List ColName) (cs0 : List ColName) (m0 : MetaDict),
    (∀ c ∈ L, cleanName c = c) →
    L.foldl cleanStep (none, cs0, m0) = (none, cs0 ++ L, m0) := by
  intro L
  induction L with
  | nil => intro cs0 m0 _; simp
  | cons c t ih =>
    intro cs0 m0 hfix
    rw [List.foldl_cons]
    have hstep : cleanStep (none, cs0, m0) c = (none, cs0 ++ [c], m0) := by
      simp [cleanStep, hfix c (by simp)]
    rw [hstep, ih (cs0 ++ [c]) m0 (fun x hx => hfix x (by simp [hx]))]
    simp

/-- Unfolding of `clean_column_names` on a dataset with a dataframe. -/
theorem clean_column_names_eq (ds : Dataset) (f : DFrame) (hdf : ds.df = some f) :
    ds.clean_column_names =
      ((f.cols.foldl cleanStep (none, [], ds.column_meta)).1,
       { ds with
         df := some { f with
                      indexName := cleanName f.indexName,
                      cols := (f.cols.foldl cleanStep (none, [], ds.column_meta)).2.1 },
         column_meta := (f.cols.foldl cleanStep (none, [], ds.column_meta)).2.2 }) := by
  simp [Dataset.clean_column_names, hdf]

/-- On a dataset whose index and column names are all fixed points of the
substitution, `clean_column_names` performs zero renames and returns the
dataset unchanged. -/
theorem clean_column_names_of_fixed (d : Dataset) (f : DFrame) (hdf : d.df = some f)
    (hidx : cleanName f.indexName = f.indexName)
    (hfix : ∀ c ∈ f.cols, cleanName c = c) :
    d.clean_column_names = (none, d) := by
  rw [clean_column_names_eq d f hdf, cleanFold_fixed f.cols [] d.column_meta hfix]
  simp only [List.nil_append, hidx]
  rw [← hdf]

/-- Claim C7 (amended): `clean_column_names` performs the whitelist
substitution with no duplicate check at all — on a loaded dataset (unique
columns, metadata covering them) it raises nothing and the column list
becomes the pointwise-cleaned image of the original one, so two originally
distinct names with the same cleaned form yield silent duplicate columns;
no `DuplicateColumnName` is raised. -/
theorem C7_clean_silent_collision (ds : Dataset) (f : DFrame)
    (hdf : ds.df = some f) (hnd : f.cols.Nodup)
    (hcov : ∀ c ∈ f.cols, (dictGet? ds.column_meta c).isSome = true) :
    (ds.clean_column_names).1 = none ∧
    (ds.clean_column_names).2.colNames = f.cols.map cleanName := by
  obtain ⟨h1, h2, _⟩ := cleanFold_ok f.cols [] ds.column_meta hnd hcov
  rw [clean_column_names_eq ds f hdf]
  exact ⟨h1, by simp [Dataset.colNames, h2]⟩

/-- Claim C7, counterexample to the claim as stated: on the dataset whose
columns `a!` and `a?` both clean to `a_`, the call raises nothing (no
`DuplicateColumnName`) and leaves the dataset with two identical column
names. -/
theorem C7_counterexample :
    (dsCollide.clean_column_names).1 = none ∧
    (dsCollide.clean_column_names).2.colNames = ["a_", "a_"] ∧
    ¬ ((dsCollide.clean_column_names).2.colNames.Nodup) := by decide

/-- Claim C7, witness: the amended statement applied to the colliding
dataset. -/
theorem C7_witness :
    (dsCollide.clean_column_names).1 = none ∧
    (dsCollide.clean_column_names).2.colNames = ["a!", "a?"].map cleanName :=
  C7_clean_silent_collision dsCollide
    { indexName := "gene", cols := ["a!", "a?"], rows := [] }
    rfl (by decide) (by decide)

/-- Claim C8: `clean_column_names` is idempotent — on a loaded dataset the
first application raises nothing, every produced name (columns and row-key)
is made of whitelist-or-underscore characters and is a fixed point of the
substitution, and a second application performs zero renames, returning the
dataset unchanged. -/
theorem C8_clean_idempotent (ds : Dataset) (f : DFrame)
    (hdf : ds.df = some f) (hnd : f.cols.Nodup)
    (hcov : ∀ c ∈ f.cols, (dictGet? ds.column_meta c).isSome = true) :
    (ds.clean_column_names).1 = none ∧
    (∀ c ∈ (ds.clean_column_names).2.colNames,
        cleanName c = c ∧ c.data.all okChar = true) ∧
    cleanName ((ds.clean_column_names).2.indexNameD)
        = (ds.clean_column_names).2.indexNameD ∧
    Dataset.clean_column_names (ds.clean_column_names).2
        = (none, (ds.clean_column_names).2) := by
  obtain ⟨h1, h2, _⟩ := cleanFold_ok f.cols [] ds.column_meta hnd hcov
  have heq := clean_column_names_eq ds f hdf
  have hcols : (ds.clean_column_names).2.colNames = f.cols.map cleanName := by
    rw [heq]
    simp [Dataset.colNames, h2]
  refine ⟨by rw [heq]; exact h1, ?_, ?_, ?_⟩
  · intro c hc
    rw [hcols] at hc
    obtain ⟨a, _, rfl⟩ := List.mem_map.mp hc
    exact ⟨cleanName_idem a, cleanName_data_ok a⟩
  · have : (ds.clean_column_names).2.indexNameD = cleanName f.indexName := by
      rw [heq]
      simp [Dataset.indexNameD]
    rw [this]
    exact cleanName_idem f.indexName
  · apply clean_column_names_of_fixed _
      { f with
        indexName := cleanName f.indexName,
        cols := (f.cols.foldl cleanStep (none, [], ds.column_meta)).2.1 }
    · rw [heq]
    · exact cleanName_idem f.indexName
    · intro c hc
      rw [h2, List.nil_append] at hc
      obtain ⟨a, _, rfl⟩ := List.mem_map.mp hc
      exact cleanName_idem a

/-- Claim C8, witness: the idempotence statement applied to a dataset with
one dirty and one clean column name. -/
theorem C8_witness :
    (dsDirty.clean_column_names).1 = none ∧
    Dataset.clean_column_names (dsDirty.clean_column_names).2
        = (none, (dsDirty.clean_column_names).2) := by
  have h := C8_clean_idempotent dsDirty
    { indexName := "gene!", cols := ["a%b", "ok"],
      rows := [("g1", [some (Cell.num 1), some (Cell.num 2)])] }
    rfl (by decide) (by decide)
  exact ⟨h.1, h.2.2.2⟩

/-- A list with a repeat has a strictly shorter dedup, so
`raise_on_duplicates` fires. -/
theorem raise_on_duplicates_of_not_nodup (l : List String) (h : ¬ l.Nodup) :
    raise_on_duplicates l = some (Err.duplicateColumnName (dupMsg l)) := by
  unfold raise_on_duplicates
  rw [if_pos]
  intro hlen
  exact h (List.dedup_eq_self.mp ((l.dedup_sublist).eq_of_length hlen.symm))

/-- A list without repeats passes `raise_on_duplicates`. -/
theorem raise_on_duplicates_of_nodup (l : List String) (h : l.Nodup) :
    raise_on_duplicates l = none := by
  unfold raise_on_duplicates
  rw [if_neg]
  simp [List.dedup_eq_self.mpr h]

/-- Claim C4 (amended): on a valid declared type and a raw header with a
repeated name, `read_datafile` raises `DuplicateColumnName` and leaves the
dataframe and the column metadata unchanged — but `input_file` has already
been set to the new path before the duplicate check, so the dataset is not
left entirely unmodified. -/
theorem C4_read_datafile_dup (ds : Dataset) (fd : FileData) (file ty : String)
    (er : Option ℚ)
    (hty : ty = "real scalar" ∨ ty = "real location" ∨ ty = "discrete")
    (hdup : ¬ fd.header.Nodup) :
    Dataset.read_datafile ds fd file ty er =
      (some (Err.duplicateColumnName (dupMsg fd.header)),
       { ds with input_file := file }) := by
  unfold Dataset.read_datafile
  rw [if_pos hty]
  rw [show Dataset.check_duplicate_col_names fd
        = some (Err.duplicateColumnName (dupMsg fd.header)) from
      raise_on_duplicates_of_not_nodup fd.header hdup]

/-- Claim C4, counterexample to the claim as stated: loading a
duplicate-header file into a fresh dataset raises `DuplicateColumnName`,
yet the dataset is modified — its `input_file` field now holds the new
path. -/
theorem C4_counterexample :
    (Dataset.read_datafile Dataset.mkEmpty fdDup "dup.tsv" "discrete" none).1
        = some (Err.duplicateColumnName (dupMsg ["gene", "a", "a"])) ∧
    (Dataset.read_datafile Dataset.mkEmpty fdDup "dup.tsv" "discrete" none).2
        ≠ Dataset.mkEmpty ∧
    (Dataset.read_datafile Dataset.mkEmpty fdDup "dup.tsv" "discrete" none).2.df
        = none ∧
    (Dataset.read_datafile Dataset.mkEmpty fdDup "dup.tsv" "discrete" none).2.column_meta
        = [] := by decide

/-- Claim C4, witness: the amended statement applied to the concrete
duplicate-header file. -/
theorem C4_witness :
    Dataset.read_datafile Dataset.mkEmpty fdDup "dup.tsv" "discrete" none
      = (some (Err.duplicateColumnName (dupMsg ["gene", "a", "a"])),
         { Dataset.mkEmpty with input_file := "dup.tsv" }) :=
  C4_read_datafile_dup Dataset.mkEmpty fdDup "dup.tsv" "discrete" none
    (Or.inr (Or.inr rfl)) (by decide)

/-- Claim C10: `check_data_type` never modifies the dataset — the state it
returns is the state it was given, whether it raises or not; the float
cast is checked and discarded. -/
theorem C10_check_data_type_pure (ds : Dataset) : (ds.check_data_type).2 = ds := by
  cases h : ds.df <;> simp [Dataset.check_data_type, h]

/-- Claim C2: the `handle_error` wrapper (i) skips the body entirely when
the sticky flag is set and tolerance is off — the result does not depend on
the body; (ii) attempts the body whenever tolerance is on, regardless of
prior failures; (iii) catches any raise from the body, records it by
setting `had_error`, and returns normally — no exception propagates. -/
theorem C2_handle_error_spec {α : Type} (f : Input → Except Err α × Input)
    (s : Input) :
    (s.had_error = true → s.tolerate_error = false →
       Input.handle_error f s = (none, s)) ∧
    (s.tolerate_error = true →
       Input.handle_error f s =
         (match f s with
          | (Except.ok a, s1) => (some a, s1)
          | (Except.error _, s1) => (none, { s1 with had_error := true }))) ∧
    (∀ e s1, f s = (Except.error e, s1) →
       (s.tolerate_error = true ∨ s.had_error = false) →
       Input.handle_error f s = (none, { s1 with had_error := true })) := by
  refine ⟨?_, ?_, ?_⟩
  · intro h1 h2
    simp [Input.handle_error, h1, h2]
  · intro h
    simp only [Input.handle_error, h, Bool.true_or, if_pos]
  · intro e s1 hfs hcond
    have hc : (s.tolerate_error || !s.had_error) = true := by
      rcases hcond with h | h <;> simp [h]
    simp only [Input.handle_error, hc, if_pos, hfs]

/-- Claim C2, witness: a raising body is skipped on a session whose sticky
flag is set, and on a fresh session its raise is swallowed and recorded. -/
theorem C2_witness :
    Input.handle_error bodyRaise sHadErr = (none, sHadErr) ∧
    Input.handle_error bodyRaise s0 = (none, { s0 with had_error := true }) :=
  ⟨(C2_handle_error_spec bodyRaise sHadErr).1 rfl rfl,
   (C2_handle_error_spec bodyRaise s0).2.2 (Err.castFloat64 "boom") s0 rfl
     (Or.inr rfl)⟩

/-- Per-column behaviour of the `check_data_type` scan: under metadata
coverage, the scan returns no error iff every declared-numeric column is
castable, and otherwise raises `CastFloat64` naming the first offending
column. -/
theorem checkFold_spec : ∀ (L : List ColName) (meta : MetaDict) (f : DFrame),
    (∀ c ∈ L, (dictGet? meta c).isSome = true) →
    ((∀ c ∈ L, declaredNumeric meta c = true → colCastable f c = true) →
       L.findSome? (checkColErr meta f) = none) ∧
    (∀ c, L.find? (fun x => declaredNumeric meta x && !colCastable f x) = some c →
       L.findSome? (checkColErr meta f) = some (Err.castFloat64 (castMsg c))) := by
  intro L
  induction L with
  | nil =>
    intro meta f _
    exact ⟨fun _ => rfl, fun c h => by simp at h⟩
  | cons x t ih =>
    intro meta f hcov
    obtain ⟨m, hm⟩ := Option.isSome_iff_exists.mp (hcov x (by simp))
    have hcovt : ∀ c ∈ t, (dictGet? meta c).isSome = true :=
      fun c hc => hcov c (by simp [hc])
    have hnumx : declaredNumeric meta x
        = (m.type == "real scalar" || m.type == "real location") := by
      unfold declaredNumeric
      rw [hm]
    constructor
    · intro hall
      rw [List.findSome?_cons]
      have hx : checkColErr meta f x = none := by
        unfold checkColErr
        rw [hm]
        by_cases ht : m.type = "real scalar" ∨ m.type = "real location"
        · have hnum : declaredNumeric meta x = true := by
            rw [hnumx]
            rcases ht with h | h <;> simp [h]
          have hc := hall x (by simp) hnum
          simp [ht, hc]
        · simp [ht]
      rw [hx]
      exact (ih meta f hcovt).1 (fun c hc hn => hall c (by simp [hc]) hn)
    · intro c hfind
      rw [List.find?_cons] at hfind
      cases hx : (declaredNumeric meta x && !colCastable f x) with
      | true =>
        rw [hx] at hfind
        have hcx : c = x := by
          simpa using hfind.symm
        subst hcx
        obtain ⟨hnum, hcast⟩ : declaredNumeric meta c = true
            ∧ !colCastable f c = true := by simpa [Bool.and_eq_true] using hx
        have ht : m.type = "real scalar" ∨ m.type = "real location" := by
          rw [hnumx] at hnum
          rcases Bool.or_eq_true_iff.mp hnum with h | h
          · exact Or.inl (beq_iff_eq.mp h)
          · exact Or.inr (beq_iff_eq.mp h)
        have hcf : colCastable f c = false := by
          cases hcc : colCastable f c
          · rfl
          · rw [hcc] at hcast; simp at hcast
        have hval : checkColErr meta f c = some (Err.castFloat64 (castMsg c)) := by
          unfold checkColErr
          rw [hm]
          simp [ht, hcf]
        rw [List.findSome?_cons, hval]
      | false =>
        rw [hx] at hfind
        rw [List.findSome?_cons]
        have hxn : checkColErr meta f x = none := by
          unfold checkColErr
          rw [hm]
          by_cases ht : m.type = "real scalar" ∨ m.type = "real location"
          · have hnum : declaredNumeric meta x = true := by
              rw [hnumx]
              rcases ht with h | h <;> simp [h]
            have hcc : colCastable f x = true := by
              cases hcc : colCastable f x
              · rw [hnum, hcc] at hx
                simp at hx
              · rfl
            simp [ht, hcc]
          · simp [ht]
        rw [hxn]
        exact (ih meta f hcovt).2 c hfind

/-- Claim C6: on a loaded dataset whose metadata covers every column,
`check_data_type` completes without raising when all declared-numeric
columns cast to float64; and when some declared-numeric column has a
non-castable value, it raises `CastFloat64` whose message names exactly the
first such offending column. -/
theorem C6_check_data_type (ds : Dataset) (f : DFrame) (hdf : ds.df = some f)
    (hcov : ∀ c ∈ f.cols, (dictGet? ds.column_meta c).isSome = true) :
    ((∀ c ∈ f.cols, declaredNumeric ds.column_meta c = true →
        colCastable f c = true) → (ds.check_data_type).1 = none) ∧
    (∀ c, f.cols.find?
        (fun x => declaredNumeric ds.column_meta x && !colCastable f x)
          = some c →
       (ds.check_data_type).1 = some (Err.castFloat64 (castMsg c)) ∧
       declaredNumeric ds.column_meta c = true ∧ colCastable f c = false) := by
  have h := checkFold_spec f.cols ds.column_meta f hcov
  constructor
  · intro hall
    simp only [Dataset.check_data_type, hdf]
    exact h.1 hall
  · intro c hf
    have hp := List.find?_some hf
    obtain ⟨hnum, hcast⟩ : declaredNumeric ds.column_meta c = true
        ∧ !colCastable f c = true := by simpa [Bool.and_eq_true] using hp
    refine ⟨?_, hnum, ?_⟩
    · simp only [Dataset.check_data_type, hdf]
      exact h.2 c hf
    · cases hcc : colCastable f c
      · rfl
      · rw [hcc] at hcast; simp at hcast

/-- Claim C6, witness: the statement applied to a dataset with a
non-numeric text cell in a real column (raises naming that column) and to
one whose numeric columns all cast (no raise). -/
theorem C6_witness :
    (dsBadNum.check_data_type).1 = some (Err.castFloat64 (castMsg "x")) ∧
    (dsGoodNum.check_data_type).1 = none := by
  refine ⟨?_, ?_⟩
  · exact ((C6_check_data_type dsBadNum
      { indexName := "gene", cols := ["x"],
        rows := [("g1", [some (Cell.txt "abc")])] }
      rfl (by decide)).2 "x" (by decide)).1
  · exact (C6_check_data_type dsGoodNum
      { indexName := "gene", cols := ["y"],
        rows := [("g1", [some (Cell.num 1)]), ("g2", [none])] }
      rfl (by decide)).1 (by decide)

/-- Claim C9 (amended): merging with zero loaded datasets never produces a
merged table — `pd.concat` on the empty dataframe list raises `ValueError`
before the merged table is assigned (and before the duplicate-name check
could run), the wrapper records the failure, and afterwards `had_error` is
true while `full_dataset.df` is still `none`. -/
theorem C9_merge_no_datasets (folder enc sep : String) :
    (Input.merge_dataframes_body (Input.mkSession folder enc sep false)).1
        = Except.error (Err.valueError "No objects to concatenate") ∧
    (Input.merge_dataframes (Input.mkSession folder enc sep false)).1 = none ∧
    (Input.merge_dataframes (Input.mkSession folder enc sep false)).2.had_error
        = true ∧
    (Input.merge_dataframes (Input.mkSession folder enc sep false)).2.full_dataset.df
        = none :=
  ⟨rfl, rfl, rfl, rfl⟩

/-- Claim C9, counterexample to the claim as stated: on a default fresh
session the raise is `pd.concat`'s `ValueError`, not an error produced by
the duplicate-name check reading the absent table — the outcome (sticky
flag set, no table) still holds. -/
theorem C9_counterexample :
    (Input.merge_dataframes_body s0).1
        = Except.error (Err.valueError "No objects to concatenate") ∧
    Err.valueError "No objects to concatenate"
        ≠ Err.attributeError "NoneType object has no attribute columns" ∧
    (Input.merge_dataframes s0).2.had_error = true ∧
    (Input.merge_dataframes s0).2.full_dataset.df = none :=
  ⟨rfl, by decide, rfl, rfl⟩

/-- Claim C1 (code evaluation at the failing input): on the merged
group/expr dataset the model file's buckets are correct — `expr` (real,
with missing data) is written as `single_normal_cm 2` — but the
`single_multinomial` line's payload is the bare `" "` template returned by
the `" ".format(...)` call at wrap_in.py:247, not the joined discrete
index list `"1"` the claim (and the parallel `join` branches) prescribe. -/
theorem C1_model_file_eval :
    Input.create_model_file_body sMerged
      = Except.ok [ModelLine.modelIndex 0 3, ModelLine.ignore 0,
          ModelLine.singleNormalCm "2", ModelLine.singleMultinomial " "] ∧
    pyFormatSpace ["1"] ≠ joinSpace ["1"] :=
  ⟨rfl, by decide⟩

/-- One-step unfolding of the `.hd2` per-column loop. -/
theorem hd2Fold_cons (f : DFrame) (meta : MetaDict) (i : Nat) (name : ColName)
    (t : List (Nat × ColName)) :
    hd2Fold f meta ((i, name) :: t)
      = match dictGet? meta name with
        | none => Except.error (Err.keyError name)
        | some m =>
          if m.type = "real scalar" then
            match colMinQ f i with
            | some mn =>
              if 0 ≤ mn then
                (hd2Fold f meta t).map
                  (fun ls => Hd2Line.realScalar (i + 1) name 0 m.error :: ls)
              else Except.error (Err.assertionError (minMsg name))
            | none => Except.error (Err.assertionError (minMsg name))
          else if m.type = "real location" then
            (hd2Fold f meta t).map
              (fun ls => Hd2Line.realLocation (i + 1) name m.error :: ls)
          else if m.type = "discrete" then
            (hd2Fold f meta t).map
              (fun ls => Hd2Line.discreteNominal (i + 1) name (colNunique f i) :: ls)
          else hd2Fold f meta t := rfl

/-- Per-column behaviour of the `.hd2` writing loop: under metadata
coverage, it succeeds (emitting a `realScalar` line with zero-point `0` and
the stored error for every `real scalar` column) exactly when no column
fails the zero-point assertion, and otherwise raises the assertion naming
the first failing column. -/
theorem hd2Fold_spec : ∀ (L : List (Nat × ColName)) (f : DFrame) (meta : MetaDict),
    (∀ p ∈ L, (dictGet? meta p.2).isSome = true) →
    (L.find? (fun p => isRealScalarCol meta p.2 && !zeroPointOk f p.1) = none →
       ∃ ls, hd2Fold f meta L = Except.ok ls ∧
         ∀ p ∈ L, ∀ m, dictGet? meta p.2 = some m → m.type = "real scalar" →
           Hd2Line.realScalar (p.1 + 1) p.2 0 m.error ∈ ls) ∧
    (∀ i name,
       L.find? (fun p => isRealScalarCol meta p.2 && !zeroPointOk f p.1)
           = some (i, name) →
       hd2Fold f meta L = Except.error (Err.assertionError (minMsg name))) := by
  intro L
  induction L with
  | nil =>
    intro f meta _
    exact ⟨fun _ => ⟨[], rfl, by simp⟩, fun i name h => by simp at h⟩
  | cons p t ih =>
    intro f meta hcov
    obtain ⟨i, name⟩ := p
    obtain ⟨m, hm⟩ := Option.isSome_iff_exists.mp (hcov (i, name) (by simp))
    have hcovt : ∀ q ∈ t, (dictGet? meta q.2).isSome = true :=
      fun q hq => hcov q (by simp [hq])
    obtain ⟨ihok, iherr⟩ := ih f meta hcovt
    have hrsc : isRealScalarCol meta name = (m.type == "real scalar") := by
      unfold isRealScalarCol
      rw [hm]
    by_cases hrs : m.type = "real scalar"
    · by_cases hzp : zeroPointOk f i = true
      · -- passing real-scalar column
        obtain ⟨mn, hmin, hmn⟩ : ∃ mn, colMinQ f i = some mn ∧ 0 ≤ mn := by
          unfold zeroPointOk at hzp
          cases hmin : colMinQ f i with
          | none => rw [hmin] at hzp; simp at hzp
          | some mn =>
            rw [hmin] at hzp
            exact ⟨mn, rfl, by simpa using hzp⟩
        have hb : (isRealScalarCol meta name && !zeroPointOk f i) = false := by
          simp [hzp]
        have hfold : hd2Fold f meta ((i, name) :: t)
            = (hd2Fold f meta t).map
                (fun ls => Hd2Line.realScalar (i + 1) name 0 m.error :: ls) := by
          rw [hd2Fold_cons, hm]
          simp [hrs, hmin, hmn]
        constructor
        · intro hnone
          rw [List.find?_cons, hb] at hnone
          obtain ⟨ls, hok, hmem⟩ := ihok hnone
          refine ⟨Hd2Line.realScalar (i + 1) name 0 m.error :: ls, ?_, ?_⟩
          · rw [hfold, hok]
            rfl
          · intro q hq m' hm' hm't
            rcases List.mem_cons.mp hq with hq1 | hq1
            · subst hq1
              rw [hm] at hm'
              have hmm : m = m' := by injection hm'
              subst hmm
              simp
            · exact List.mem_cons_of_mem _ (hmem q hq1 m' hm' hm't)
        · intro i' name' hfind
          rw [List.find?_cons, hb] at hfind
          rw [hfold, iherr i' name' hfind]
          rfl
      · -- failing real-scalar column: the assertion fires here
        have hb : (isRealScalarCol meta name && !zeroPointOk f i) = true := by
          rw [hrsc]
          simp [hrs, Bool.not_eq_true _ ▸ hzp]
        have hfold : hd2Fold f meta ((i, name) :: t)
            = Except.error (Err.assertionError (minMsg name)) := by
          rw [hd2Fold_cons, hm]
          have hzp' : zeroPointOk f i = false := by
            cases h : zeroPointOk f i
            · rfl
            · exact absurd h hzp
          unfold zeroPointOk at hzp'
          cases hmin : colMinQ f i with
          | none => simp [hrs, hmin]
          | some mn =>
            rw [hmin] at hzp'
            have : ¬ (0 ≤ mn) := by simpa using hzp'
            simp [hrs, hmin, this]
        constructor
        · intro hnone
          rw [List.find?_cons, hb] at hnone
          simp at hnone
        · intro i' name' hfind
          rw [List.find?_cons, hb] at hfind
          have : (i, name) = (i', name') := by simpa using hfind
          have hname : name' = name := (Prod.mk.injEq .. ▸ this).2.symm
          rw [hfold, hname]
    · -- not a real-scalar column: no assertion, maybe another line
      have hb : (isRealScalarCol meta name && !zeroPointOk f i) = false := by
        rw [hrsc]
        simp [hrs]
      have step : ∀ (res : Except Err (List Hd2Line)),
          hd2Fold f meta t = res →
          (hd2Fold f meta ((i, name) :: t)
              = res.map (fun ls => Hd2Line.realLocation (i + 1) name m.error :: ls))
          ∨ (hd2Fold f meta ((i, name) :: t)
              = res.map (fun ls =>
                  Hd2Line.discreteNominal (i + 1) name (colNunique f i) :: ls))
          ∨ hd2Fold f meta ((i, name) :: t) = res := by
        intro res hres
        rw [hd2Fold_cons, hm]
        by_cases hrl : m.type = "real location"
        · left
          simp [hrs, hrl, hres]
        · by_cases hdi : m.type = "discrete"
          · right; left
            simp [hrs, hrl, hdi, hres]
          · right; right
            simp [hrs, hrl, hdi, hres]
      constructor
      · intro hnone
        rw [List.find?_cons, hb] at hnone
        obtain ⟨ls, hok, hmem⟩ := ihok hnone
        have hmemtail : ∀ (extra : List Hd2Line),
            (∀ q ∈ t, ∀ m', dictGet? meta q.2 = some m' → m'.type = "real scalar" →
              Hd2Line.realScalar (q.1 + 1) q.2 0 m'.error ∈ extra ++ ls) ∧
            (∀ q ∈ (i, name) :: t, ∀ m', dictGet? meta q.2 = some m' →
              m'.type = "real scalar" →
              Hd2Line.realScalar (q.1 + 1) q.2 0 m'.error ∈ extra ++ ls) := by
          intro extra
          constructor
          · intro q hq m' hm' hm't
            exact List.mem_append.mpr (Or.inr (hmem q hq m' hm' hm't))
          · intro q hq m' hm' hm't
            rcases List.mem_cons.mp hq with hq1 | hq1
            · subst hq1
              rw [hm] at hm'
              have hmm : m = m' := by injection hm'
              subst hmm
              exact absurd hm't hrs
            · exact List.mem_append.mpr (Or.inr (hmem q hq1 m' hm' hm't))
        rcases step (Except.ok ls) hok with hcase | hcase | hcase
        · refine ⟨Hd2Line.realLocation (i + 1) name m.error :: ls, hcase, ?_⟩
          exact (hmemtail [Hd2Line.realLocation (i + 1) name m.error]).2
        · refine ⟨Hd2Line.discreteNominal (i + 1) name (colNunique f i) :: ls,
            hcase, ?_⟩
          exact (hmemtail [Hd2Line.discreteNominal (i + 1) name (colNunique f i)]).2
        · refine ⟨ls, hcase, (hmemtail []).2⟩
      · intro i' name' hfind
        rw [List.find?_cons, hb] at hfind
        have herr := iherr i' name' hfind
        rcases step _ herr with hcase | hcase | hcase
          <;> rw [hcase] <;> rfl

/-- Claim C3 (amended): header-file generation fails its zero-point
precondition exactly when some `real scalar` column fails the minimum
check — its observed minimum is negative or it has no observed numeric
value at all (a `NaN` minimum also fails `>= 0.0`).  When every `real
scalar` column passes, the file is written with each such column declared
with zero-point `0.0` and its stored error value; otherwise the assertion
fires naming the first failing column. -/
theorem C3_create_hd2 (s : Input) (f : DFrame)
    (hdf : s.full_dataset.df = some f)
    (hcov : ∀ p ∈ f.cols.enum,
        (dictGet? s.full_dataset.column_meta p.2).isSome = true) :
    (hd2FirstFail f s.full_dataset.column_meta = none →
       ∃ ls, Input.create_hd2_file_body s = Except.ok (hd2Head s f ++ ls) ∧
         ∀ p ∈ f.cols.enum, ∀ m,
           dictGet? s.full_dataset.column_meta p.2 = some m →
           m.type = "real scalar" →
           Hd2Line.realScalar (p.1 + 1) p.2 0 m.error ∈ ls) ∧
    (∀ i name, hd2FirstFail f s.full_dataset.column_meta = some (i, name) →
       Input.create_hd2_file_body s
         = Except.error (Err.assertionError (minMsg name))) := by
  obtain ⟨hok, herr⟩ := hd2Fold_spec f.cols.enum f s.full_dataset.column_meta hcov
  constructor
  · intro hnone
    obtain ⟨ls, hfold, hmem⟩ := hok hnone
    refine ⟨ls, ?_, hmem⟩
    simp only [Input.create_hd2_file_body, hdf, hfold]
    rfl
  · intro i name hfail
    have := herr i name hfail
    simp only [Input.create_hd2_file_body, hdf, this]
    rfl

/-- Claim C3, counterexample to the claim as stated: a merged dataset whose
only `real scalar` column has no observed numeric value fails header-file
generation (its `NaN` minimum fails `>= 0.0`) although no real-scalar
column's observed minimum is below `0.0`. -/
theorem C3_counterexample :
    Input.create_hd2_file_body sAllMissing
        = Except.error (Err.assertionError (minMsg "v")) ∧
    hasNegMinRealScalar sAllMissing = false :=
  ⟨rfl, by decide⟩

/-- Claim C3, witness: on a negative-minimum column the amended statement
yields the assertion naming that column; on a nonnegative column the file
is written and carries the `zero_point 0.0` real-scalar declaration with
the column's error value. -/
theorem C3_witness :
    Input.create_hd2_file_body sNegMin
        = Except.error (Err.assertionError (minMsg "w")) ∧
    (Input.create_hd2_file_body sPosMin).isOk = true ∧
    Hd2Line.realScalar 1 "a" 0 (some 1)
        ∈ (Input.create_hd2_file_body sPosMin).toOption.getD [] := by
  have hneg := (C3_create_hd2 sNegMin
    { indexName := "gene", cols := ["w"],
      rows := [("g1", [some (Cell.num (-1))]), ("g2", [some (Cell.num 2)])] }
    rfl (by decide)).2 0 "w" (by decide)
  obtain ⟨ls, hokk, hmem⟩ := (C3_create_hd2 sPosMin
    { indexName := "gene", cols := ["a"],
      rows := [("g1", [some (Cell.num 1)]), ("g2", [some (Cell.num 2)])] }
    rfl (by decide)).1 (by decide)
  refine ⟨hneg, ?_, ?_⟩
  · rw [hokk]
    rfl
  · rw [hokk]
    refine List.mem_append.mpr (Or.inr ?_)
    have := hmem (0, "a") (by decide) ⟨"real scalar", some 1, false⟩
      (by decide) rfl
    simpa using this

/-! Lemmas about the outer concatenation. -/

/-- A frame's contribution to a merged row always spans its columns. -/
theorem rowCells_length (f : DFrame) (r : RowKey) (hwf : f.WF) :
    (rowCells f r).length = f.cols.length := by
  unfold rowCells
  cases hfind : f.rows.find? (fun p => p.1 == r) with
  | some p => exact hwf.1 p (List.mem_of_find?_eq_some hfind)
  | none => simp

/-- A key absent from a frame contributes a row of missing values. -/
theorem rowCells_of_not_mem (f : DFrame) (r : RowKey) (hr : r ∉ f.rowKeys) :
    rowCells f r = f.cols.map (fun _ => none) := by
  unfold rowCells
  rw [List.find?_eq_none.mpr]
  intro p hp hpr
  exact hr (List.mem_map.mpr ⟨p, hp, beq_iff_eq.mp hpr⟩)

/-- The merged column list zipped with a merged row splits into the
per-frame zipped blocks. -/
theorem zip_colsFlat_cellsAt : ∀ (fs : List DFrame) (r : RowKey),
    (∀ f ∈ fs, f.WF) →
    (colsFlat fs).zip (cellsAt fs r)
      = (fs.map (fun g => g.cols.zip (rowCells g r))).flatten := by
  intro fs
  induction fs with
  | nil => intro r _; rfl
  | cons g t ih =>
    intro r hwf
    show (g.cols ++ colsFlat t).zip (rowCells g r ++ cellsAt t r) = _
    rw [List.zip_append (rowCells_length g r (hwf g (by simp))).symm,
        ih r (fun f hf => hwf f (by simp [hf]))]
    rfl

/-- The first component of a zipped-block member is one of that suffix's
columns. -/
theorem mem_colsFlat_of_mem_blocks (t : List DFrame) (r : RowKey)
    (q : ColName × Option Cell)
    (hq : q ∈ (t.map (fun g => g.cols.zip (rowCells g r))).flatten) :
    q.1 ∈ colsFlat t := by
  rw [List.mem_flatten] at hq
  obtain ⟨bl, hbl, hqbl⟩ := hq
  obtain ⟨g, hg, rfl⟩ := List.mem_map.mp hbl
  obtain ⟨a, b⟩ := q
  have := (List.of_mem_zip hqbl).1
  exact List.mem_flatten.mpr ⟨g.cols, List.mem_map_of_mem DFrame.cols hg, this⟩

/-- With globally distinct column names, a zipped-block entry bearing a
column name of frame `f` can only come from `f`'s block. -/
theorem zip_block_unique : ∀ (fs : List DFrame) (r : RowKey) (c : ColName)
    (f : DFrame), (colsFlat fs).Nodup → f ∈ fs → c ∈ f.cols →
    ∀ (q : ColName × Option Cell),
      q ∈ (fs.map (fun g => g.cols.zip (rowCells g r))).flatten → q.1 = c →
      q ∈ f.cols.zip (rowCells f r) := by
  intro fs
  induction fs with
  | nil =>
    intro r c f _ hf
    simp at hf
  | cons g t ih =>
    intro r c f hnd hf hc q hq hqc
    have hnd' : (g.cols ++ colsFlat t).Nodup := hnd
    rw [List.nodup_append] at hnd'
    have hq' : q ∈ g.cols.zip (rowCells g r)
        ∨ q ∈ (t.map (fun g => g.cols.zip (rowCells g r))).flatten := by
      rw [List.map_cons] at hq
      exact List.mem_append.mp hq
    rcases List.mem_cons.mp hf with hfg | hft
    · subst hfg
      rcases hq' with hq1 | hq1
      · exact hq1
      · exfalso
        have hct : q.1 ∈ colsFlat t := mem_colsFlat_of_mem_blocks t r q hq1
        exact hnd'.2.2 (hqc ▸ hc) (hqc ▸ hct)
    · rcases hq' with hq1 | hq1
      · exfalso
        obtain ⟨a, b⟩ := q
        have hg1 : a ∈ g.cols := (List.of_mem_zip hq1).1
        have hct : c ∈ colsFlat t :=
          List.mem_flatten.mpr ⟨f.cols, List.mem_map_of_mem DFrame.cols hft, hc⟩
        exact hnd'.2.2 (hqc ▸ hg1) hct
      · exact ih r c f hnd'.2.1 hft hc q hq1 hqc

/-- `find?` on a key-tagged map finds the looked-up key's entry. -/
theorem find?_pair_map (l : List RowKey) (g : RowKey → List (Option Cell))
    (r : RowKey) (h : r ∈ l) :
    (l.map (fun k => (k, g k))).find? (fun p => p.1 == r) = some (r, g r) := by
  induction l with
  | nil => simp at h
  | cons a t ih =>
    rw [List.map_cons]
    by_cases ha : a = r
    · subst ha
      simp [List.find?_cons]
    · rw [List.find?_cons]
      have : ((a, g a).1 == r) = false := beqF ha
      rw [this]
      exact ih (by
        rcases List.mem_cons.mp h with h1 | h1
        · exact absurd h1.symm ha
        · exact h1)

/-- The merged frame stores exactly `cellsAt` for each union key. -/
theorem outerConcat_rows_find (fs : List DFrame) (r : RowKey)
    (hr : r ∈ keysUnion fs) :
    (outerConcat fs).rows.find? (fun p => p.1 == r) = some (r, cellsAt fs r) :=
  find?_pair_map (keysUnion fs) (cellsAt fs) r hr

/-- The merged frame's row keys are the union of the input keys. -/
theorem outerConcat_rowKeys (fs : List DFrame) :
    (outerConcat fs).rowKeys = keysUnion fs := by
  show ((keysUnion fs).map (fun r => (r, cellsAt fs r))).map Prod.fst = _
  rw [List.map_map]
  have hcomp : (Prod.fst ∘ fun r : RowKey => (r, cellsAt fs r)) = id := rfl
  rw [hcomp, List.map_id]

/-- Membership in the merged row keys is membership in some input frame. -/
theorem outerConcat_mem_rowKeys (fs : List DFrame) (r : RowKey) :
    r ∈ (outerConcat fs).rowKeys ↔ ∃ f ∈ fs, r ∈ f.rowKeys := by
  rw [outerConcat_rowKeys]
  unfold keysUnion
  rw [List.mem_dedup, List.mem_flatten]
  constructor
  · rintro ⟨l, hl, hrl⟩
    obtain ⟨f, hf, rfl⟩ := List.mem_map.mp hl
    exact ⟨f, hf, hrl⟩
  · rintro ⟨f, hf, hrf⟩
    exact ⟨f.rowKeys, List.mem_map_of_mem DFrame.rowKeys hf, hrf⟩

/-- The merged column count is the sum of the input column counts. -/
theorem outerConcat_cols_length (fs : List DFrame) :
    (outerConcat fs).cols.length = (fs.map (fun f => f.cols.length)).sum := by
  show (colsFlat fs).length = _
  unfold colsFlat
  rw [List.length_flatten, List.map_map]
  rfl

/-- Cells of a merged row at columns of a frame that lacks the row are
missing. -/
theorem outerConcat_cell_absent (fs : List DFrame) (hwf : ∀ f ∈ fs, f.WF)
    (hnd : (colsFlat fs).Nodup) (f : DFrame) (hf : f ∈ fs) (r : RowKey)
    (hr : r ∈ (outerConcat fs).rowKeys) (hrf : r ∉ f.rowKeys)
    (c : ColName) (hc : c ∈ f.cols) :
    (outerConcat fs).cell r c = none := by
  have hru : r ∈ keysUnion fs := by rw [← outerConcat_rowKeys]; exact hr
  show (match (outerConcat fs).rows.find? (fun p => p.1 == r) with
        | some p => (((outerConcat fs).cols.zip p.2).find?
            (fun q => q.1 == c)).bind Prod.snd
        | none => none) = none
  rw [outerConcat_rows_find fs r hru]
  show (((colsFlat fs).zip (cellsAt fs r)).find? (fun q => q.1 == c)).bind
      Prod.snd = none
  cases hfind : ((colsFlat fs).zip (cellsAt fs r)).find? (fun q => q.1 == c) with
  | none => rfl
  | some q =>
    have hq1 : q.1 = c := by
      have := List.find?_some hfind
      simpa using this
    have hqmem : q ∈ (colsFlat fs).zip (cellsAt fs r) :=
      List.mem_of_find?_eq_some hfind
    rw [zip_colsFlat_cellsAt fs r hwf] at hqmem
    have hqf : q ∈ f.cols.zip (rowCells f r) :=
      zip_block_unique fs r c f hnd hf hc q hqmem hq1
    obtain ⟨a, b⟩ := q
    have hb := (List.of_mem_zip hqf).2
    rw [rowCells_of_not_mem f r hrf] at hb
    obtain ⟨x, _, hxe⟩ := List.mem_map.mp hb
    show b = none
    exact hxe.symm

/-- `allSome` over a list of present options returns the underlying
list (the merge's dataframe list holds no `None`). -/
theorem allSome_map_some (fs : List DFrame) : allSome (fs.map some) = some fs := by
  induction fs with
  | nil => rfl
  | cons f t ih => simp [allSome, ih]

/-- The post-merge checks leave the merged dataframe and the dataset's
source path untouched (they only raise or update missing flags). -/
theorem afterMergeChecks_frame (s : Input) :
    (afterMergeChecks s).2.full_dataset.df = s.full_dataset.df ∧
    (afterMergeChecks s).2.full_dataset.input_file
        = s.full_dataset.input_file := by
  cases hdf : s.full_dataset.df with
  | none => simp [afterMergeChecks, hdf]
  | some f =>
    cases hdup : raise_on_duplicates f.cols with
    | some e => simp [afterMergeChecks, hdf, hdup]
    | none =>
      cases hm : (searchMissingMeta f s.full_dataset.column_meta).1 with
      | some e => simp [afterMergeChecks, hdf, hdup, hm]
      | none => simp [afterMergeChecks, hdf, hdup, hm]

/-- With two or more datasets, `merge_dataframes` takes the concatenation
path. -/
theorem merge_body_multi (s : Input) (a b : Dataset) (t : List Dataset)
    (hds : s.input_datasets = a :: b :: t) :
    Input.merge_dataframes_body s
      = match concatDfs (s.input_datasets.map Dataset.df) with
        | Except.error e =>
          (Except.error e,
           { s with
             full_dataset :=
               { s.full_dataset with column_meta := mergedMeta s } })
        | Except.ok f =>
          afterMergeChecks
            { s with
              full_dataset :=
                { s.full_dataset with
                  column_meta := mergedMeta s,
                  df := some f } } := by
  obtain ⟨f1, f2, f3, f4, f5, f6, f7⟩ := s
  have hds' : f4 = a :: b :: t := hds
  subst hds'
  rfl

/-- With a succeeding concatenation, the body runs the checks on the state
holding the united metadata and the merged frame. -/
theorem merge_body_multi_ok (s : Input) (a b : Dataset) (t : List Dataset)
    (hds : s.input_datasets = a :: b :: t) (g : DFrame)
    (hok : concatDfs (s.input_datasets.map Dataset.df) = Except.ok g) :
    Input.merge_dataframes_body s
      = afterMergeChecks
          { s with
            full_dataset :=
              { s.full_dataset with
                column_meta := mergedMeta s,
                df := some g } } := by
  rw [merge_body_multi s a b t hds, hok]

/-- With exactly one dataset, the body adopts it as the merged dataset and
runs the checks on it. -/
theorem merge_body_single (s : Input) (d : Dataset)
    (hds : s.input_datasets = [d]) :
    Input.merge_dataframes_body s
      = afterMergeChecks { s with full_dataset := d } := by
  obtain ⟨f1, f2, f3, f4, f5, f6, f7⟩ := s
  have hds' : f4 = [d] := hds
  subst hds'
  rfl

/-- Claim C5: merging (i) with `N ≥ 2` loaded datasets sharing no column
names yields the merged table holding some-dataframe state whose column
count is the sum of the inputs' column counts, whose row-key set is the
union of the inputs' row-key sets, and whose cells at row/column pairs
absent from the contributing dataset are missing; (ii) with exactly one
dataset, that dataset itself becomes the merged dataset (same dataframe and
source path); (iii) the metadata union gives a collided key the later
dataset's value. -/
theorem C5_merge_spec :
    (∀ (s : Input) (fs : List DFrame),
       s.input_datasets.map Dataset.df = fs.map some →
       2 ≤ fs.length →
       (∀ f ∈ fs, f.WF) →
       (colsFlat fs).Nodup →
       (Input.merge_dataframes_body s).2.full_dataset.df
           = some (outerConcat fs) ∧
       (outerConcat fs).cols.length = (fs.map (fun f => f.cols.length)).sum ∧
       (∀ r, r ∈ (outerConcat fs).rowKeys ↔ ∃ f ∈ fs, r ∈ f.rowKeys) ∧
       (∀ f ∈ fs, ∀ r ∈ (outerConcat fs).rowKeys, r ∉ f.rowKeys →
          ∀ c ∈ f.cols, (outerConcat fs).cell r c = none)) ∧
    (∀ (s : Input) (d : Dataset), s.input_datasets = [d] →
       (Input.merge_dataframes_body s).2.full_dataset.df = d.df ∧
       (Input.merge_dataframes_body s).2.full_dataset.input_file
           = d.input_file) ∧
    (∀ (s : Input) (pre post : List Dataset) (d : Dataset) (k : ColName)
       (v : Meta),
       s.input_datasets = pre ++ d :: post →
       (d.column_meta.map Prod.fst).Nodup →
       dictGet? d.column_meta k = some v →
       (∀ e ∈ post, dictGet? e.column_meta k = none) →
       dictGet? (mergedMeta s) k = some v) := by
  refine ⟨?_, ?_, ?_⟩
  · intro s fs hmap hlen hwf hnd
    have hlen2 : s.input_datasets.length = fs.length := by
      have := congrArg List.length hmap
      simpa using this
    obtain ⟨a, b, t, hds⟩ : ∃ a b t, s.input_datasets = a :: b :: t := by
      cases hd : s.input_datasets with
      | nil =>
        rw [hd] at hlen2
        simp at hlen2
        omega
      | cons a rest =>
        cases rest with
        | nil =>
          rw [hd] at hlen2
          simp at hlen2
          omega
        | cons b t => exact ⟨a, b, t, rfl⟩
    have hfs_ne : fs ≠ [] := by
      intro hfs
      rw [hfs] at hlen
      simp at hlen
    have hconcat : concatDfs (s.input_datasets.map Dataset.df)
        = Except.ok (outerConcat fs) := by
      rw [hmap]
      have hne : (fs.map some).isEmpty = false := by
        cases fs with
        | nil => exact absurd rfl hfs_ne
        | cons f ft => rfl
      simp [concatDfs, hne, allSome_map_some]
    rw [merge_body_multi_ok s a b t hds (outerConcat fs) hconcat]
    refine ⟨?_, outerConcat_cols_length fs,
      fun r => outerConcat_mem_rowKeys fs r, ?_⟩
    · rw [(afterMergeChecks_frame _).1]
    · intro f hf r hr hrf c hc
      exact outerConcat_cell_absent fs hwf hnd f hf r hr hrf c hc
  · intro s d hds
    rw [merge_body_single s d hds]
    exact ⟨(afterMergeChecks_frame _).1, (afterMergeChecks_frame _).2⟩
  · intro s pre post d k v hsplit hnd hv hpost
    unfold mergedMeta
    rw [hsplit, List.foldl_append, List.foldl_cons]
    exact foldl_union_keep post _ k v
      (get?_dictUnion_some d.column_meta _ k v hnd hv) hpost

/-- Claim C5, witness: merging the two-file scenario yields the merged
frame with `1 + 1` columns, row `g3` present (from `A.tsv` only) and its
`expr` cell missing; a single-dataset merge adopts that dataset; and the
colliding metadata key reads back the later dataset's value. -/
theorem C5_witness :
    (Input.merge_dataframes_body sAB).2.full_dataset.df
        = some (outerConcat [fA, fB]) ∧
    (outerConcat [fA, fB]).cols.length = 2 ∧
    ("g3" ∈ (outerConcat [fA, fB]).rowKeys) ∧
    (outerConcat [fA, fB]).cell "g3" "expr" = none ∧
    (Input.merge_dataframes_body sSingle).2.full_dataset.df = dsA.df ∧
    dictGet? (mergedMeta sColl) "shared" = some metaLater := by
  obtain ⟨pa, pb, pc⟩ := C5_merge_spec
  have h1 := pa sAB [fA, fB] rfl (by decide) (by decide) (by decide)
  have hg3 : "g3" ∈ (outerConcat [fA, fB]).rowKeys :=
    (h1.2.2.1 "g3").mpr ⟨fA, by simp, by decide⟩
  refine ⟨h1.1, h1.2.1.trans (by decide), hg3, ?_, ?_, ?_⟩
  · exact h1.2.2.2 fB (by simp) "g3" hg3 (by decide) "expr" (by decide)
  · exact (pb sSingle dsA rfl).1
  · exact pc sColl [dsM1] [] dsM2 "shared" metaLater rfl (by decide) (by decide)
      (by simp)
